import Mathlib

/-!
Verification of the graph-convolution layer library in
`GCMC adaptation/layers.py` (graph-cnn-recommender-systems).

Dense matrices are lists of rows over ℚ; sparse tensors are
coordinate lists.  Nonlinearities whose values the claims do not
depend on (sigmoid, the configurable activation, batch
normalisation) are taken as function parameters, exactly as the
layers take `act` as a parameter.
-/

namespace GCMC

/-- Dense matrix: list of rows of rationals (a `tf` dense tensor). -/
abbrev Mat := List (List ℚ)

/-- Column count of a (rectangular) matrix, read off the first row. -/
def width (A : Mat) : ℕ := (A.headD []).length

/-- Dot product of two equal-length rows. -/
def dotRow (r c : List ℚ) : ℚ := (List.zipWith (· * ·) r c).sum

/-- Column `j` of a matrix. -/
def matCol (A : Mat) (j : ℕ) : List ℚ := A.map (fun r => r.getD j 0)

/-- Dense matrix product, `tf.matmul`. -/
def matMul (A B : Mat) : Mat :=
  A.map (fun r => (List.range (width B)).map (fun j => dotRow r (matCol B j)))

/-- Entrywise sum of two same-shaped matrices (`+` on tensors). -/
def matAdd (A B : Mat) : Mat := List.zipWith (List.zipWith (· + ·)) A B

/-- Entrywise (Hadamard) product of two same-shaped matrices, `tf.multiply`. -/
def matHadamard (A B : Mat) : Mat := List.zipWith (List.zipWith (· * ·)) A B

/-- Map a scalar function over every entry (elementwise activation). -/
def emap (f : ℚ → ℚ) (A : Mat) : Mat := A.map (fun r => r.map f)

/-- Add a bias row to every row of a matrix, `tf.nn.bias_add`. -/
def biasAdd (A : Mat) (b : List ℚ) : Mat := A.map (fun r => List.zipWith (· + ·) r b)

/-- Horizontal (column-axis) concatenation of two matrices. -/
def hconcat (A B : Mat) : Mat := List.zipWith (· ++ ·) A B

/-- Column-axis concatenation of a list of matrices, `tf.concat(axis=1)`. -/
def concatCols : List Mat → Mat
  | [] => []
  | M :: Ms => Ms.foldl hconcat M

/-- Sum of a nonempty list of same-shaped matrices, `tf.add_n`. -/
def matAddList : List Mat → Mat
  | [] => []
  | M :: Ms => Ms.foldl matAdd M

/-- Rectified linear unit on a rational, `tf.nn.relu` entrywise. -/
def reluQ (q : ℚ) : ℚ := max q 0

/-- Shape predicate: `A` has exactly `m` rows, each of length `n`. -/
def Rect (A : Mat) (m n : ℕ) : Prop := A.length = m ∧ ∀ r ∈ A, r.length = n

/-- Sparse tensor in coordinate form: dense shape plus explicit entries. -/
structure SparseM where
  rows : ℕ
  cols : ℕ
  entries : List (ℕ × ℕ × ℚ)
deriving Repr, DecidableEq

/-- Sparse–dense matrix product, `tf.sparse_tensor_dense_matmul`. -/
def spmm (S : SparseM) (D : Mat) : Mat :=
  (List.range S.rows).map (fun i =>
    (List.range (width D)).map (fun j =>
      ((S.entries.filter (fun e => e.1 = i)).map
        (fun e => e.2.2 * ((D.getD e.2.1 []).getD j 0))).sum))

/-- Transpose of a sparse tensor, `tf.sparse_transpose`. -/
def sparseTranspose (S : SparseM) : SparseM :=
  { rows := S.cols, cols := S.rows,
    entries := S.entries.map (fun e => (e.2.1, e.1, e.2.2)) }

/-- Dense dropout with an explicit per-entry multiplier drawn outside
(`tf.nn.dropout` with its random mask made explicit): entry `(i, j)` is
multiplied by `mask i j`. -/
def dropoutD (mask : ℕ → ℕ → ℚ) (x : Mat) : Mat :=
  (List.range x.length).map (fun i =>
    (List.range ((x.getD i []).length)).map (fun j =>
      ((x.getD i []).getD j 0) * mask i j))

/-!  Ordinal weight accumulation (`OrdinalMixtureGCN._call` lines
968–973 and the `Ui1 += ...` accumulators of `OrdinalRGGCN._call`):
the loop accumulator `wu` starts at `0.`, absorbs `weights[i]` at the
top of iteration `i`, and the value after that `+=` is the effective
weight used at relation `i`.  Unrolling the accumulator gives the list
below. -/

/-- Tail of the running-sum unrolling: with current accumulator `acc`
and remaining raw slices `ws`, the effective weights used at the
remaining iterations. -/
def runningSumsAux (acc : Mat) : List Mat → List Mat
  | [] => [acc]
  | w :: ws => acc :: runningSumsAux (matAdd acc w) ws

/-- Effective per-iteration weights of the ordinal accumulation loop:
the accumulator starts as `0. + ws[0] = ws[0]` (scalar-zero broadcast),
then each later iteration adds the next raw slice before use. -/
def runningSums : List Mat → List Mat
  | [] => []
  | w :: ws => runningSumsAux w ws

/-- Specification-side prefix sum: the sum of the raw weight slices
`0..r` (`Σ_{j≤r} raw_weight_j`, the spec's ordinal-policy formula). -/
def matSumList : List Mat → Mat
  | [] => []
  | w :: ws => ws.foldl matAdd w

/-- Spec formula for the effective ordinal weight at relation `r`. -/
def specOrdinalWeight (ws : List Mat) (r : ℕ) : Mat := matSumList (ws.take (r + 1))

/-- Forward evaluation of `StackGCN._call` (dense-input path, lines
819–854): dropout on both feature matrices, then per relation `i`
project the opposite partition's features through weight block `i`,
propagate through the relation's support (resp. transposed support),
concatenate the per-relation results along the feature axis, and apply
the activation.  `wu`, `wv` are the column blocks produced by
`tf.split` in `__init__`; `mu`, `mv` make the dropout draws explicit;
`ρ` is the configured activation. -/
def stackGCN_call (wu wv : List Mat) (sup supt : List SparseM)
    (ρ : ℚ → ℚ) (mu mv : ℕ → ℕ → ℚ) (xu xv : Mat) : Mat × Mat :=
  let x_u := dropoutD mu xu
  let x_v := dropoutD mv xv
  let supports_u := (List.range sup.length).map
    (fun i => spmm (sup.getD i ⟨0, 0, []⟩) (matMul x_v (wv.getD i [])))
  let supports_v := (List.range sup.length).map
    (fun i => spmm (supt.getD i ⟨0, 0, []⟩) (matMul x_u (wu.getD i [])))
  (emap ρ (concatCols supports_u), emap ρ (concatCols supports_v))

/-- Configuration of `OrdinalMixtureGCN` after `__init__` has selected
which weight slices and supports feed the ordinal loop and which serve
the optional self-connection. -/
structure OrdinalMixtureGCN where
  loopWeights_u : List Mat
  loopWeights_v : List Mat
  selfWeight_u : Mat
  selfWeight_v : Mat
  support : List SparseM
  support_t : List SparseM
  uSelf : SparseM
  vSelf : SparseM
  selfConnections : Bool
  bias_u : Option (List ℚ)
  bias_v : Option (List ℚ)
deriving Repr, DecidableEq

/-- Weight/support selection of `OrdinalMixtureGCN.__init__` (lines
911–934).  With `self_connections` the code first truncates
(`self.weights_u = self.weights_u[:-1]`) and only then reads the
self-connection slice (`self.weights_u_self_conn = self.weights_u[-1]`),
so the self-connection slice is the last element of the truncated
list. -/
def ordinalMixtureGCN_init (ws_u ws_v : List Mat) (sup supt : List SparseM)
    (bias_u bias_v : Option (List ℚ)) (selfConnections : Bool) :
    OrdinalMixtureGCN :=
  if selfConnections then
    { loopWeights_u := ws_u.dropLast
      loopWeights_v := ws_v.dropLast
      selfWeight_u := (ws_u.dropLast).getLastD []
      selfWeight_v := (ws_v.dropLast).getLastD []
      support := sup.dropLast
      support_t := supt.dropLast
      uSelf := sup.getLastD ⟨0, 0, []⟩
      vSelf := supt.getLastD ⟨0, 0, []⟩
      selfConnections := true
      bias_u := bias_u
      bias_v := bias_v }
  else
    { loopWeights_u := ws_u
      loopWeights_v := ws_v
      selfWeight_u := []
      selfWeight_v := []
      support := sup
      support_t := supt
      uSelf := ⟨0, 0, []⟩
      vSelf := ⟨0, 0, []⟩
      selfConnections := false
      bias_u := bias_u
      bias_v := bias_v }

/-- Effective user-side weights consumed by the ordinal loop of
`OrdinalMixtureGCN._call` (the `wu += self.weights_u[i]` accumulator). -/
def ordinalMixtureGCN_effWeights_u (cfg : OrdinalMixtureGCN) : List Mat :=
  runningSums cfg.loopWeights_u

/-- Effective item-side weights consumed by the ordinal loop
(the `wv += self.weights_v[i]` accumulator). -/
def ordinalMixtureGCN_effWeights_v (cfg : OrdinalMixtureGCN) : List Mat :=
  runningSums cfg.loopWeights_v

/-- The `supports_u` / `supports_v` lists built by
`OrdinalMixtureGCN._call` (lines 957–984): the optional
self-connection contribution is appended first, then the ordinal loop
appends one propagated projection per remaining relation.  Inputs are
the post-dropout feature matrices. -/
def ordinalMixtureGCN_summands (cfg : OrdinalMixtureGCN) (x_u x_v : Mat) :
    List Mat × List Mat :=
  let selfTerms_u := if cfg.selfConnections then
      [spmm cfg.uSelf (matMul x_u cfg.selfWeight_u)] else []
  let selfTerms_v := if cfg.selfConnections then
      [spmm cfg.vSelf (matMul x_v cfg.selfWeight_v)] else []
  let effU := ordinalMixtureGCN_effWeights_u cfg
  let effV := ordinalMixtureGCN_effWeights_v cfg
  let loop_u := (List.range cfg.support.length).map
    (fun i => spmm (cfg.support.getD i ⟨0, 0, []⟩) (matMul x_v (effV.getD i [])))
  let loop_v := (List.range cfg.support.length).map
    (fun i => spmm (cfg.support_t.getD i ⟨0, 0, []⟩) (matMul x_u (effU.getD i [])))
  (selfTerms_u ++ loop_u, selfTerms_v ++ loop_v)

/-- Optional bias addition (`if self.bias: tf.nn.bias_add(...)`). -/
def applyBias : Option (List ℚ) → Mat → Mat
  | some b, A => biasAdd A b
  | none, A => A

/-- Forward evaluation of `OrdinalMixtureGCN._call` (lines 948–996):
dropout, the summand lists above, `tf.add_n`, optional bias, and the
activation. -/
def ordinalMixtureGCN_call (cfg : OrdinalMixtureGCN) (ρ : ℚ → ℚ)
    (mu mv : ℕ → ℕ → ℚ) (xu xv : Mat) : Mat × Mat :=
  let x_u := dropoutD mu xu
  let x_v := dropoutD mv xv
  let s := ordinalMixtureGCN_summands cfg x_u x_v
  (emap ρ (applyBias cfg.bias_u (matAddList s.1)),
   emap ρ (applyBias cfg.bias_v (matAddList s.2)))

/-- Parameters allocated by `OrdinalRGGCN.__init__` (lines 161–183):
stacked per-relation weights for two convolution stages, one bias pair
per stage, the residual projection `R`, and the edge-incidence lists. -/
structure OrdinalRGGCNParams where
  Ui1 : List Mat
  Uj1 : List Mat
  Vi1 : List Mat
  Vj1 : List Mat
  bu1 : List ℚ
  bv1 : List ℚ
  Ui2 : List Mat
  Uj2 : List Mat
  Vi2 : List Mat
  Vj2 : List Mat
  bu2 : List ℚ
  bv2 : List ℚ
  R : Mat
  E_start : List SparseM
  E_end : List SparseM

/-- Body of one gated-residual convolution iteration (`OrdinalRGGCN._call`
lines 217–229 and 245–257, without the trailing relu that only the
first loop applies): effective weights `Ui Uj Vi Vj`, message bias
`bu`, gate bias `bv`, incidence matrices `Es = E_start[i]` and
`Ee = E_end[i]`, sigmoid `σ`, batch normalisation `bn`. -/
def rggcnConv (Ui Uj Vi Vj : Mat) (bu bv : List ℚ) (Es Ee : SparseM)
    (σ : ℚ → ℚ) (bn : Mat → Mat) (x : Mat) : Mat :=
  let Vix := matMul x Vi
  let Vjx := matMul x Vj
  let x1 := emap σ (biasAdd (matAdd (spmm Ee Vix) (spmm Es Vjx)) bv)
  let Uix := matMul x Ui
  let Ujx := matMul x Uj
  let x2 := spmm Es Ujx
  bn (biasAdd (matAdd Uix (spmm (sparseTranspose Ee) (matHadamard x1 x2))) bu)

/-- First loop of `OrdinalRGGCN._call` (lines 206–232): cumulative
weight accumulation, one gated convolution per relation, relu inside
the loop, `tf.add_n` across relations. -/
def ordinalRGGCN_stage1 (p : OrdinalRGGCNParams) (σ : ℚ → ℚ)
    (bn : Mat → Mat) (x : Mat) : Mat :=
  matAddList ((List.range p.E_start.length).map (fun i =>
    emap reluQ (rggcnConv
      ((runningSums p.Ui1).getD i []) ((runningSums p.Uj1).getD i [])
      ((runningSums p.Vi1).getD i []) ((runningSums p.Vj1).getD i [])
      p.bu1 p.bv1
      (p.E_start.getD i ⟨0, 0, []⟩) (p.E_end.getD i ⟨0, 0, []⟩) σ bn x)))

/-- Second loop of `OrdinalRGGCN._call` (lines 234–260) with the two
bias vectors it adds taken as explicit arguments (`bu` at line 256,
`bv` at line 250); no relu inside this loop. -/
def ordinalRGGCN_stage2With (p : OrdinalRGGCNParams) (bu bv : List ℚ)
    (σ : ℚ → ℚ) (bn : Mat → Mat) (x : Mat) : Mat :=
  matAddList ((List.range p.E_start.length).map (fun i =>
    rggcnConv
      ((runningSums p.Ui2).getD i []) ((runningSums p.Uj2).getD i [])
      ((runningSums p.Vi2).getD i []) ((runningSums p.Vj2).getD i [])
      bu bv
      (p.E_start.getD i ⟨0, 0, []⟩) (p.E_end.getD i ⟨0, 0, []⟩) σ bn x))

/-- Forward evaluation of `OrdinalRGGCN._call` (lines 198–267): the
inputs are densified and concatenated, dropout applied, both loops
run — the second loop's `tf.nn.bias_add` calls name `self.bv1` (line
250) and `self.bu1` (line 256) — then the residual projection, relu,
and the user/item split. -/
def ordinalRGGCN_call (p : OrdinalRGGCNParams) (σ : ℚ → ℚ)
    (bn : Mat → Mat) (mask : ℕ → ℕ → ℚ) (users items : Mat) : Mat × Mat :=
  let original_x := dropoutD mask (users ++ items)
  let out1 := ordinalRGGCN_stage1 p σ bn original_x
  let out2 := ordinalRGGCN_stage2With p p.bu1 p.bv1 σ bn out1
  let output := emap reluQ (matAdd out2 (matMul original_x p.R))
  (output.take users.length, output.drop users.length)

/-- Parameters allocated by `StackRGGCNDouble.__init__` (lines
391–409): per-relation split weight blocks and split bias blocks for
two stages, plus the residual projection and incidence lists. -/
structure StackRGGCNDoubleParams where
  Ui1 : List Mat
  Uj1 : List Mat
  Vi1 : List Mat
  Vj1 : List Mat
  bu1 : List (List ℚ)
  bv1 : List (List ℚ)
  Ui2 : List Mat
  Uj2 : List Mat
  Vi2 : List Mat
  Vj2 : List Mat
  bu2 : List (List ℚ)
  bv2 : List (List ℚ)
  R : Mat
  E_start : List SparseM
  E_end : List SparseM

/-- First loop of `StackRGGCNDouble._call` (lines 445–463):
independent per-relation weight blocks, relu inside the loop,
concatenation across relations. -/
def stackRGGCNDouble_stage1 (q : StackRGGCNDoubleParams) (σ : ℚ → ℚ)
    (bn : Mat → Mat) (x : Mat) : Mat :=
  concatCols ((List.range q.E_start.length).map (fun i =>
    emap reluQ (rggcnConv
      (q.Ui1.getD i []) (q.Uj1.getD i []) (q.Vi1.getD i []) (q.Vj1.getD i [])
      (q.bu1.getD i []) (q.bv1.getD i [])
      (q.E_start.getD i ⟨0, 0, []⟩) (q.E_end.getD i ⟨0, 0, []⟩) σ bn x)))

/-- Second loop of `StackRGGCNDouble._call` (lines 465–482) with the
two per-relation bias lists it adds taken as explicit arguments
(line 472 and line 478); no relu inside this loop. -/
def stackRGGCNDouble_stage2With (q : StackRGGCNDoubleParams)
    (bu bv : List (List ℚ)) (σ : ℚ → ℚ) (bn : Mat → Mat) (x : Mat) : Mat :=
  concatCols ((List.range q.E_start.length).map (fun i =>
    rggcnConv
      (q.Ui2.getD i []) (q.Uj2.getD i []) (q.Vi2.getD i []) (q.Vj2.getD i [])
      (bu.getD i []) (bv.getD i [])
      (q.E_start.getD i ⟨0, 0, []⟩) (q.E_end.getD i ⟨0, 0, []⟩) σ bn x))

/-- Forward evaluation of `StackRGGCNDouble._call` (lines 430–489):
both loops — the second loop's `tf.nn.bias_add` calls name
`self.bv1[i]` (line 472) and `self.bu1[i]` (line 478) — then the
residual projection, relu, and the user/item split. -/
def stackRGGCNDouble_call (q : StackRGGCNDoubleParams) (σ : ℚ → ℚ)
    (bn : Mat → Mat) (mask : ℕ → ℕ → ℚ) (users items : Mat) : Mat × Mat :=
  let original_x := dropoutD mask (users ++ items)
  let out1 := stackRGGCNDouble_stage1 q σ bn original_x
  let out2 := stackRGGCNDouble_stage2With q q.bu1 q.bv1 σ bn out1
  let output := emap reluQ (matAdd out2 (matMul original_x q.R))
  (output.take users.length, output.drop users.length)

/-- Construction-time check of `StackGCN.__init__` (line 788): the
`assert output_dim % num_support == 0` gate; on success the layer's
`tf.split` produces blocks of the returned width. -/
def stackGCN_init (_input_dim output_dim num_support : ℕ) : Option ℕ :=
  if output_dim % num_support = 0 then some (output_dim / num_support) else none

/-- Construction-time check of `StackGCNGate.__init__` (line 689). -/
def stackGCNGate_init (_input_dim output_dim num_support : ℕ) : Option ℕ :=
  if output_dim % num_support = 0 then some (output_dim / num_support) else none

/-- Construction-time checks of `StackRGGCN.__init__` (lines 288–289),
in source order: divisibility first, then the incidence-list length. -/
def stackRGGCN_init (_input_dim output_dim num_support numEStart : ℕ) : Option ℕ :=
  if output_dim % num_support = 0 then
    if numEStart = num_support then some (output_dim / num_support) else none
  else none

/-- Construction-time checks of `StackSimple.__init__` (lines 510–511). -/
def stackSimple_init (_input_dim output_dim num_support numEStart : ℕ) : Option ℕ :=
  if output_dim % num_support = 0 then
    if numEStart = num_support then some (output_dim / num_support) else none
  else none

/-- Row gather, `tf.gather`: row `i` of the result is row `idx[i]` of `A`. -/
def gather (A : Mat) (idx : List ℕ) : Mat := idx.map (fun i => A.getD i [])

/-- The decoder's `_multiply_inputs_weights`: `tf.multiply` against a
`1 × d` diagonal vector (broadcast across rows) in diagonal mode,
`tf.matmul` otherwise. -/
def mulInputsWeights (diagonal : Bool) (U W : Mat) : Mat :=
  if diagonal then U.map (fun r => List.zipWith (· * ·) r (W.headD []))
  else matMul U W

/-- Stack a list of equal-length columns along axis 1,
`tf.stack(axis=1)`: row `k` collects entry `k` of every column. -/
def stackAxis1 (cols : List (List ℚ)) : Mat :=
  (List.range ((cols.headD []).length)).map (fun k => cols.map (fun c => c.getD k 0))

/-- Parameters of `BilinearMixture.__init__` (lines 1016–1051):
`num_weights` basis matrices (diagonal mode stores `1 × input_dim`
vectors), the `num_weights × num_classes` mixture matrix, optional
per-node bias tables, and the requested edge index lists. -/
structure BilinearMixtureParams where
  weights : List Mat
  weights_scalars : Mat
  user_bias : Mat
  item_bias : Mat
  user_item_bias : Bool
  diagonal : Bool
  u_indices : List ℕ
  v_indices : List ℕ

/-- Forward evaluation of `BilinearMixture._call` (lines 1054–1086):
dropout, gather at the requested indices, one bilinear score per basis
matrix per edge, stack, mixture matmul, optional gathered bias, and
the configured activation `act` applied per row. -/
def bilinearMixture_call (p : BilinearMixtureParams) (act : List ℚ → List ℚ)
    (mu mv : ℕ → ℕ → ℚ) (uEmb vEmb : Mat) : Mat :=
  let u_inputs := gather (dropoutD mu uEmb) p.u_indices
  let v_inputs := gather (dropoutD mv vEmb) p.v_indices
  let basis_outputs := stackAxis1 (p.weights.map (fun W =>
    List.zipWith dotRow (mulInputsWeights p.diagonal u_inputs W) v_inputs))
  let outputs := matMul basis_outputs p.weights_scalars
  let outputs' := if p.user_item_bias then
      matAdd (matAdd outputs (gather p.user_bias p.u_indices))
        (gather p.item_bias p.v_indices)
    else outputs
  outputs'.map act

/-- Sparse dropout, `dropout_sparse` (lines 31–40): one uniform draw
per explicit nonzero; the entry is retained iff
`floor(keep_prob + draw)` casts to a true boolean (is nonzero), and
every retained value is rescaled by `1 / keep_prob`. -/
def dropout_sparse (x : SparseM) (keep_prob : ℚ) (draws : List ℚ) : SparseM :=
  { rows := x.rows, cols := x.cols,
    entries :=
      ((x.entries.zip
          (draws.map (fun u => decide (Int.floor (keep_prob + u) ≠ 0)))).filterMap
        (fun e => if e.2 then some e.1 else none)).map
        (fun e => (e.1, e.2.1, e.2.2 * (1 / keep_prob))) }

/-- Exchange the first `w` columns with the remaining columns of every
row: the column permutation matching a swap of two width-`w` relation
blocks. -/
def blockSwap (w : ℕ) (M : Mat) : Mat := M.map (fun r => r.drop w ++ r.take w)

/-- The tensors a constructed `StackGCN` layer owns when `_call` runs. -/
structure StackGCNVars where
  weights_u : List Mat
  weights_v : List Mat
  support : List SparseM
  support_transpose : List SparseM
deriving DecidableEq

/-- Forward evaluation of `StackGCN._call` together with the layer
state after the call.  The method body (lines 819–854) contains no
assignment to `self`, so the state after the call is the state it
started with. -/
def stackGCN_callVars (L : StackGCNVars) (ρ : ℚ → ℚ)
    (mu mv : ℕ → ℕ → ℚ) (xu xv : Mat) : (Mat × Mat) × StackGCNVars :=
  (stackGCN_call L.weights_u L.weights_v L.support L.support_transpose
    ρ mu mv xu xv, L)

/-- Broadcast of two dimension sizes (numpy/tf semantics): equal sizes
broadcast to themselves, a size-1 dimension stretches, anything else
is a shape error. -/
def bcastDim (m n : ℕ) : Option ℕ :=
  if m = n then some m else if m = 1 then some n else if n = 1 then some m else none

/-- Read entry `(i, j)` of a matrix under broadcasting: a single row
(resp. single column) is reused for every `i` (resp. `j`). -/
def bget (A : Mat) (i j : ℕ) : ℚ :=
  let r := if A.length = 1 then A.getD 0 [] else A.getD i []
  if r.length = 1 then r.getD 0 0 else r.getD j 0

/-- Broadcasting elementwise binary operation on dense tensors
(`tf.add` / `tf.multiply`); `none` when the shapes do not broadcast. -/
def tfBinop (f : ℚ → ℚ → ℚ) (A B : Mat) : Option Mat :=
  match bcastDim A.length B.length, bcastDim (width A) (width B) with
  | some m, some n =>
      some ((List.range m).map (fun i => (List.range n).map (fun j =>
        f (bget A i j) (bget B i j))))
  | _, _ => none

/-- Broadcasting `tf.add`. -/
def tfAdd (A B : Mat) : Option Mat := tfBinop (· + ·) A B

/-- Broadcasting `tf.multiply`. -/
def tfMul (A B : Mat) : Option Mat := tfBinop (· * ·) A B

/-- Sequence a list of optional values; `none` as soon as any element
is `none` (a shape error anywhere aborts the whole evaluation). -/
def optList {α : Type} : List (Option α) → Option (List α)
  | [] => some []
  | o :: os => o.bind (fun a => (optList os).map (fun l => a :: l))

/-- One relation of `StackGCNGate._call` (lines 739–757): project both
partitions, form the gate `sigmoid(A + B)` via broadcasting `tf.add`,
multiply both projected messages by the gate, and propagate through
the support and its transpose. -/
def stackGCNGate_relTerm (wu wv wA wB : Mat) (sup supt : SparseM)
    (σ : ℚ → ℚ) (x_u x_v : Mat) : Option (Mat × Mat) :=
  let tmp_u := matMul x_u wu
  let tmp_v := matMul x_v wv
  let A := matMul x_u wA
  let B := matMul x_v wB
  (tfAdd A B).bind (fun s =>
    let gate := emap σ s
    (tfMul tmp_v gate).bind (fun tv =>
      (tfMul tmp_u gate).map (fun tu =>
        (spmm sup tv, spmm supt tu))))

/-- Forward evaluation of `StackGCNGate._call` (dense-input path,
lines 725–767): dropout, the gated per-relation terms, feature-axis
concatenation, and the activation; `none` on any broadcast shape
error. -/
def stackGCNGate_call (wu wv wA wB : List Mat) (sup supt : List SparseM)
    (σ ρ : ℚ → ℚ) (mu mv : ℕ → ℕ → ℚ) (xu xv : Mat) : Option (Mat × Mat) :=
  let x_u := dropoutD mu xu
  let x_v := dropoutD mv xv
  (optList ((List.range sup.length).map (fun i =>
    stackGCNGate_relTerm (wu.getD i []) (wv.getD i []) (wA.getD i [])
      (wB.getD i []) (sup.getD i ⟨0, 0, []⟩) (supt.getD i ⟨0, 0, []⟩)
      σ x_u x_v))).map (fun terms =>
    (emap ρ (concatCols (terms.map Prod.fst)),
     emap ρ (concatCols (terms.map Prod.snd))))

/-- Parameters allocated by `StackRGGCN.__init__` (lines 293–309): one
stage of per-relation split weight and bias blocks, the residual
projection, and the incidence lists. -/
structure StackRGGCNParams where
  Ui1 : List Mat
  Uj1 : List Mat
  Vi1 : List Mat
  Vj1 : List Mat
  bu1 : List (List ℚ)
  bv1 : List (List ℚ)
  R : Mat
  E_start : List SparseM
  E_end : List SparseM

/-- Forward evaluation of `StackRGGCN._call` (lines 324–365): one
gated-convolution loop with relu inside, feature-axis concatenation,
residual projection, relu, and the user/item split. -/
def stackRGGCN_call (pr : StackRGGCNParams) (σ : ℚ → ℚ) (bn : Mat → Mat)
    (mask : ℕ → ℕ → ℚ) (users items : Mat) : Mat × Mat :=
  let original_x := dropoutD mask (users ++ items)
  let out1 := concatCols ((List.range pr.E_start.length).map (fun i =>
    emap reluQ (rggcnConv
      (pr.Ui1.getD i []) (pr.Uj1.getD i []) (pr.Vi1.getD i []) (pr.Vj1.getD i [])
      (pr.bu1.getD i []) (pr.bv1.getD i [])
      (pr.E_start.getD i ⟨0, 0, []⟩) (pr.E_end.getD i ⟨0, 0, []⟩) σ bn
      original_x)))
  let output := emap reluQ (matAdd out1 (matMul original_x pr.R))
  (output.take users.length, output.drop users.length)

/-- Body of one ungated convolution iteration of `StackSimple._call`
(lines 574–579 and 588–593): message `x·Ui + E_endᵀ·(E_start·(x·Uj))`,
bias, batch normalisation. -/
def stackSimpleConv (Ui Uj : Mat) (bu : List ℚ) (Es Ee : SparseM)
    (bn : Mat → Mat) (x : Mat) : Mat :=
  bn (biasAdd (matAdd (matMul x Ui)
    (spmm (sparseTranspose Ee) (spmm Es (matMul x Uj)))) bu)

/-- Parameters allocated by `StackSimple.__init__` (lines 515–533);
the `Vi`/`Vj`/`bv` blocks are allocated but unused by `_call`. -/
structure StackSimpleParams where
  Ui1 : List Mat
  Uj1 : List Mat
  Vi1 : List Mat
  Vj1 : List Mat
  bu1 : List (List ℚ)
  bv1 : List (List ℚ)
  Ui2 : List Mat
  Uj2 : List Mat
  Vi2 : List Mat
  Vj2 : List Mat
  bu2 : List (List ℚ)
  bv2 : List (List ℚ)
  R : Mat
  E_start : List SparseM
  E_end : List SparseM

/-- Forward evaluation of `StackSimple._call` (lines 554–603): two
ungated loops (the second reads `self.bu1[i]` at line 592 and applies
no relu inside), concatenation after each, residual projection, relu,
split. -/
def stackSimple_call (ps : StackSimpleParams) (bn : Mat → Mat)
    (mask : ℕ → ℕ → ℚ) (users items : Mat) : Mat × Mat :=
  let original_x := dropoutD mask (users ++ items)
  let out1 := concatCols ((List.range ps.E_start.length).map (fun i =>
    emap reluQ (stackSimpleConv (ps.Ui1.getD i []) (ps.Uj1.getD i [])
      (ps.bu1.getD i []) (ps.E_start.getD i ⟨0, 0, []⟩)
      (ps.E_end.getD i ⟨0, 0, []⟩) bn original_x)))
  let out2 := concatCols ((List.range ps.E_start.length).map (fun i =>
    stackSimpleConv (ps.Ui2.getD i []) (ps.Uj2.getD i [])
      (ps.bu1.getD i []) (ps.E_start.getD i ⟨0, 0, []⟩)
      (ps.E_end.getD i ⟨0, 0, []⟩) bn out1))
  let output := emap reluQ (matAdd out2 (matMul original_x ps.R))
  (output.take users.length, output.drop users.length)

/-- Parameters allocated by `Simple.__init__` (lines 625–629). -/
structure SimpleParams where
  W1 : Mat
  b1 : List ℚ
  W2 : Mat
  b2 : List ℚ

/-- Forward evaluation of `Simple._call` (lines 647–667): concatenate,
dropout, two dense layers with bias (the configured activation is
never applied in the source), split. -/
def simple_call (pw : SimpleParams) (mask : ℕ → ℕ → ℚ)
    (users items : Mat) : Mat × Mat :=
  let x0 := dropoutD mask (users ++ items)
  let x1 := biasAdd (matMul x0 pw.W1) pw.b1
  let x2 := biasAdd (matMul x1 pw.W2) pw.b2
  (x2.take users.length, x2.drop users.length)

/-- Variables of a constructed `Dense` layer (lines 94–113). -/
structure DenseVars where
  weights_u : Mat
  weights_v : Mat
  user_bias : Option (List ℚ)
  item_bias : Option (List ℚ)

/-- Forward evaluation of `Dense._call` (lines 120–136): dropout,
projection, activation, then the optional bias added after the
activation. -/
def dense_call (d : DenseVars) (act : ℚ → ℚ) (mu mv : ℕ → ℕ → ℚ)
    (xu xv : Mat) : Mat × Mat :=
  (applyBias d.user_bias (emap act (matMul (dropoutD mu xu) d.weights_u)),
   applyBias d.item_bias (emap act (matMul (dropoutD mv xv) d.weights_v)))

/-- The tensors a constructed `StackGCNGate` layer owns when `_call`
runs. -/
structure StackGCNGateVars where
  weights_u : List Mat
  weights_v : List Mat
  weights_A : List Mat
  weights_B : List Mat
  support : List SparseM
  support_transpose : List SparseM

/-- `StackGCNGate._call` together with the layer state after the call;
the method body (lines 725–767) contains no assignment to `self`. -/
def stackGCNGate_callVars (G : StackGCNGateVars) (σ ρ : ℚ → ℚ)
    (mu mv : ℕ → ℕ → ℚ) (xu xv : Mat) :
    Option (Mat × Mat) × StackGCNGateVars :=
  (stackGCNGate_call G.weights_u G.weights_v G.weights_A G.weights_B
    G.support G.support_transpose σ ρ mu mv xu xv, G)

/-- `OrdinalMixtureGCN._call` together with the layer state after the
call; the method body (lines 948–996) contains no assignment to
`self`. -/
def ordinalMixtureGCN_callVars (cfg : OrdinalMixtureGCN) (ρ : ℚ → ℚ)
    (mu mv : ℕ → ℕ → ℚ) (xu xv : Mat) : (Mat × Mat) × OrdinalMixtureGCN :=
  (ordinalMixtureGCN_call cfg ρ mu mv xu xv, cfg)

/-- `OrdinalRGGCN._call` together with the layer state after the call;
the method body (lines 198–267) contains no assignment to `self`. -/
def ordinalRGGCN_callVars (p : OrdinalRGGCNParams) (σ : ℚ → ℚ)
    (bn : Mat → Mat) (mask : ℕ → ℕ → ℚ) (users items : Mat) :
    (Mat × Mat) × OrdinalRGGCNParams :=
  (ordinalRGGCN_call p σ bn mask users items, p)

/-- `StackRGGCN._call` together with the layer state after the call;
the method body (lines 324–365) contains no assignment to `self`. -/
def stackRGGCN_callVars (pr : StackRGGCNParams) (σ : ℚ → ℚ)
    (bn : Mat → Mat) (mask : ℕ → ℕ → ℚ) (users items : Mat) :
    (Mat × Mat) × StackRGGCNParams :=
  (stackRGGCN_call pr σ bn mask users items, pr)

/-- `StackRGGCNDouble._call` together with the layer state after the
call; the method body (lines 430–489) contains no assignment to
`self`. -/
def stackRGGCNDouble_callVars (q : StackRGGCNDoubleParams) (σ : ℚ → ℚ)
    (bn : Mat → Mat) (mask : ℕ → ℕ → ℚ) (users items : Mat) :
    (Mat × Mat) × StackRGGCNDoubleParams :=
  (stackRGGCNDouble_call q σ bn mask users items, q)

/-- `StackSimple._call` together with the layer state after the call;
the method body (lines 554–603) contains no assignment to `self`. -/
def stackSimple_callVars (ps : StackSimpleParams) (bn : Mat → Mat)
    (mask : ℕ → ℕ → ℚ) (users items : Mat) :
    (Mat × Mat) × StackSimpleParams :=
  (stackSimple_call ps bn mask users items, ps)

/-- `Simple._call` together with the layer state after the call; the
method body (lines 647–667) contains no assignment to `self`. -/
def simple_callVars (pw : SimpleParams) (mask : ℕ → ℕ → ℚ)
    (users items : Mat) : (Mat × Mat) × SimpleParams :=
  (simple_call pw mask users items, pw)

/-- `Dense._call` together with the layer state after the call; the
method body (lines 120–136) contains no assignment to `self`. -/
def dense_callVars (d : DenseVars) (act : ℚ → ℚ) (mu mv : ℕ → ℕ → ℚ)
    (xu xv : Mat) : (Mat × Mat) × DenseVars :=
  (dense_call d act mu mv xu xv, d)

theorem runningSumsAux_getD (l : List Mat) :
    ∀ (acc : Mat) (r : ℕ), r < l.length + 1 →
      (runningSumsAux acc l).getD r [] = (l.take r).foldl matAdd acc := by
  induction l with
  | nil =>
      intro acc r hr
      simp only [List.length_nil, Nat.zero_add, Nat.lt_one_iff] at hr
      subst hr
      simp [runningSumsAux]
  | cons w ws ih =>
      intro acc r hr
      cases r with
      | zero => simp [runningSumsAux]
      | succ r =>
          simp only [runningSumsAux, List.getD_cons_succ, List.take_succ_cons,
            List.foldl_cons]
          exact ih (matAdd acc w) r (by simpa using Nat.lt_of_succ_lt_succ hr)

theorem runningSums_getD (ws : List Mat) (r : ℕ) (hr : r < ws.length) :
    (runningSums ws).getD r [] = specOrdinalWeight ws r := by
  cases ws with
  | nil => simp at hr
  | cons w ws =>
      simp only [runningSums, specOrdinalWeight, List.take_succ_cons, matSumList]
      exact runningSumsAux_getD ws w r (by simpa using hr)

/-- C3: in the gated-residual family (`OrdinalRGGCN` and
`StackRGGCNDouble`), the bias added in the second convolution stage is
the first stage's bias vector (`bu1`/`bv1`), not the second stage's own
allocated bias (`bu2`/`bv2`): every forward evaluation is unchanged by
any values stored in the `bu2`/`bv2` slots, and equals the forward
evaluation in which those slots hold the first-stage biases. -/
theorem secondStageBias_reuses_firstStage
    (p : OrdinalRGGCNParams) (q : StackRGGCNDoubleParams)
    (σ ρ : ℚ → ℚ) (bn : Mat → Mat) (mask : ℕ → ℕ → ℚ)
    (users items : Mat) (b2 c2 : List ℚ) (d2 e2 : List (List ℚ)) :
    ordinalRGGCN_call { p with bu2 := b2, bv2 := c2 } σ bn mask users items
        = ordinalRGGCN_call { p with bu2 := p.bu1, bv2 := p.bv1 } σ bn mask users items
    ∧ stackRGGCNDouble_call { q with bu2 := d2, bv2 := e2 } ρ bn mask users items
        = stackRGGCNDouble_call { q with bu2 := q.bu1, bv2 := q.bv1 } ρ bn mask users items := by
  exact ⟨rfl, rfl⟩

/-- C1: for every relation index `r < R`, the effective projection
weight used at relation `r` in the ordinal variants — the
`wu += weights[i]` accumulator of `OrdinalMixtureGCN._call` and the
`Ui1 += self.Ui1[i]` accumulator of the first loop of
`OrdinalRGGCN._call` — equals the exact prefix sum of the raw weight
matrices `0..r`. -/
theorem ordinalEffectiveWeight_eq_prefixSum
    (cfg : OrdinalMixtureGCN) (p : OrdinalRGGCNParams) (r s : ℕ)
    (hr : r < cfg.loopWeights_u.length) (hs : s < p.Ui1.length) :
    (ordinalMixtureGCN_effWeights_u cfg).getD r []
        = specOrdinalWeight cfg.loopWeights_u r
    ∧ (runningSums p.Ui1).getD s [] = specOrdinalWeight p.Ui1 s :=
  ⟨runningSums_getD _ _ hr, runningSums_getD _ _ hs⟩

/-- Witness for `ordinalEffectiveWeight_eq_prefixSum` at `R = 3` raw
slices on the mixture side and one slice on the residual-gated side. -/
theorem ordinalEffectiveWeight_eq_prefixSum_witness :
    (ordinalMixtureGCN_effWeights_u
        ⟨[[[1]], [[2]], [[4]]], [[[1]], [[2]], [[4]]], [], [],
          [], [], ⟨0, 0, []⟩, ⟨0, 0, []⟩, false, none, none⟩).getD 2 []
        = specOrdinalWeight [[[1]], [[2]], [[4]]] 2
    ∧ (runningSums ([[[3]]] : List Mat)).getD 0 []
        = specOrdinalWeight [[[3]]] 0 :=
  ordinalEffectiveWeight_eq_prefixSum
    ⟨[[[1]], [[2]], [[4]]], [[[1]], [[2]], [[4]]], [], [],
      [], [], ⟨0, 0, []⟩, ⟨0, 0, []⟩, false, none, none⟩
    ⟨[[[3]]], [], [], [], [], [], [], [], [], [], [], [], [], [], []⟩
    2 0 (by decide) (by decide)

theorem getLastD_eq_getD {α : Type} (l : List α) (d : α) :
    l.getLastD d = l.getD (l.length - 1) d := by
  induction l with
  | nil => rfl
  | cons a l ih =>
      cases l with
      | nil => rfl
      | cons b l' =>
          simpa [List.getLastD_cons] using ih

theorem getD_dropLast {α : Type} (l : List α) (d : α) (k : ℕ)
    (hk : k < l.length - 1) : l.dropLast.getD k d = l.getD k d := by
  induction l generalizing k with
  | nil => rfl
  | cons a l ih =>
      cases l with
      | nil => simp at hk
      | cons b l' =>
          cases k with
          | zero => rfl
          | succ k =>
              have hk' : k < (b :: l').length - 1 := by
                simp only [List.length_cons] at hk ⊢
                omega
              simpa using ih k hk'

theorem getLastD_mem {α : Type} (l : List α) (d : α) (h : l ≠ []) :
    l.getLastD d ∈ l := by
  induction l with
  | nil => exact absurd rfl h
  | cons a l ih =>
      cases l with
      | nil => simp
      | cons b l' =>
          simpa [List.getLastD_cons] using Or.inr (ih (by simp))

/-- C2 counterexample: with `self_connections` and the raw weight
slices `[[1]], [[2]]` (`R = 2`), the self-loop adjacency is projected
through `[[1]]` — a slice that the ordinal loop also consumes — and
not through the dedicated last slice `[[2]]`, because `__init__`
truncates `self.weights_u` before reading `self.weights_u[-1]`. -/
theorem selfConnWeight_not_dedicated_counterexample :
    (ordinalMixtureGCN_init [[[1]], [[2]]] [[[1]], [[2]]]
        [⟨1, 1, [(0, 0, 1)]⟩, ⟨1, 1, [(0, 0, 1)]⟩]
        [⟨1, 1, [(0, 0, 1)]⟩, ⟨1, 1, [(0, 0, 1)]⟩]
        none none true).selfWeight_u = [[(1 : ℚ)]]
    ∧ [[(1 : ℚ)]] ∈ (ordinalMixtureGCN_init [[[1]], [[2]]] [[[1]], [[2]]]
        [⟨1, 1, [(0, 0, 1)]⟩, ⟨1, 1, [(0, 0, 1)]⟩]
        [⟨1, 1, [(0, 0, 1)]⟩, ⟨1, 1, [(0, 0, 1)]⟩]
        none none true).loopWeights_u
    ∧ (ordinalMixtureGCN_init [[[1]], [[2]]] [[[1]], [[2]]]
        [⟨1, 1, [(0, 0, 1)]⟩, ⟨1, 1, [(0, 0, 1)]⟩]
        [⟨1, 1, [(0, 0, 1)]⟩, ⟨1, 1, [(0, 0, 1)]⟩]
        none none true).selfWeight_u ≠ [[(2 : ℚ)]] := by
  refine ⟨rfl, ?_, by decide⟩
  simp [ordinalMixtureGCN_init]

/-- C2 amended: with `self_connections` enabled and `R ≥ 2` raw weight
slices, the identity (self-loop) adjacency is projected through the
last slice of the *truncated* weight list — raw slice `R − 2`, which
the ordinal loop also consumes (the allocated slice `R − 1` is never
used) — and its contribution is appended to the summand list before
the ordinal loop's contributions. -/
theorem selfConnWeight_is_lastTruncated
    (ws_u ws_v : List Mat) (sup supt : List SparseM)
    (bu bv : Option (List ℚ)) (x_u x_v : Mat)
    (h2 : 2 ≤ ws_u.length) :
    ((ordinalMixtureGCN_init ws_u ws_v sup supt bu bv true).selfWeight_u
        = ws_u.getD (ws_u.length - 2) [])
    ∧ ((ordinalMixtureGCN_init ws_u ws_v sup supt bu bv true).selfWeight_u
        ∈ (ordinalMixtureGCN_init ws_u ws_v sup supt bu bv true).loopWeights_u)
    ∧ ((ordinalMixtureGCN_summands
          (ordinalMixtureGCN_init ws_u ws_v sup supt bu bv true) x_u x_v).1
        = spmm (ordinalMixtureGCN_init ws_u ws_v sup supt bu bv true).uSelf
            (matMul x_u
              (ordinalMixtureGCN_init ws_u ws_v sup supt bu bv true).selfWeight_u)
          :: (List.range
                (ordinalMixtureGCN_init ws_u ws_v sup supt bu bv true).support.length).map
              (fun i => spmm
                ((ordinalMixtureGCN_init ws_u ws_v sup supt bu bv true).support.getD
                  i ⟨0, 0, []⟩)
                (matMul x_v
                  ((ordinalMixtureGCN_effWeights_v
                    (ordinalMixtureGCN_init ws_u ws_v sup supt bu bv true)).getD i [])))) := by
  have hne : ws_u.dropLast ≠ [] := by
    intro h
    have hlen := congrArg List.length h
    rw [List.length_dropLast] at hlen
    simp only [List.length_nil] at hlen
    omega
  refine ⟨?_, ?_, rfl⟩
  · show (ws_u.dropLast).getLastD [] = ws_u.getD (ws_u.length - 2) []
    rw [getLastD_eq_getD, List.length_dropLast]
    rw [getD_dropLast ws_u [] (ws_u.length - 1 - 1) (by omega)]
    rfl
  · show (ws_u.dropLast).getLastD [] ∈ ws_u.dropLast
    exact getLastD_mem _ _ hne

/-- Witness for `selfConnWeight_is_lastTruncated` at `R = 2`. -/
theorem selfConnWeight_is_lastTruncated_witness :
    ((ordinalMixtureGCN_init [[[5]], [[7]]] [[[5]], [[7]]] [] [] none none
        true).selfWeight_u = ([[[5]], [[7]]] : List Mat).getD 0 [])
    ∧ ((ordinalMixtureGCN_init [[[5]], [[7]]] [[[5]], [[7]]] [] [] none none
        true).selfWeight_u
        ∈ (ordinalMixtureGCN_init [[[5]], [[7]]] [[[5]], [[7]]] [] [] none none
        true).loopWeights_u)
    ∧ ((ordinalMixtureGCN_summands
          (ordinalMixtureGCN_init [[[5]], [[7]]] [[[5]], [[7]]] [] [] none none true)
          [[1]] [[1]]).1
        = spmm (ordinalMixtureGCN_init [[[5]], [[7]]] [[[5]], [[7]]] [] [] none none
            true).uSelf
            (matMul [[1]]
              (ordinalMixtureGCN_init [[[5]], [[7]]] [[[5]], [[7]]] [] [] none none
                true).selfWeight_u)
          :: (List.range
                (ordinalMixtureGCN_init [[[5]], [[7]]] [[[5]], [[7]]] [] [] none none
                  true).support.length).map
              (fun i => spmm
                ((ordinalMixtureGCN_init [[[5]], [[7]]] [[[5]], [[7]]] [] [] none none
                  true).support.getD i ⟨0, 0, []⟩)
                (matMul [[1]]
                  ((ordinalMixtureGCN_effWeights_v
                    (ordinalMixtureGCN_init [[[5]], [[7]]] [[[5]], [[7]]] [] [] none none
                      true)).getD i [])))) :=
  selfConnWeight_is_lastTruncated [[[5]], [[7]]] [[[5]], [[7]]] [] [] none none
    [[1]] [[1]] (by decide)

theorem initCheck_isSome (o n : ℕ) :
    (if o % n = 0 then some (o / n) else (none : Option ℕ)).isSome ↔ n ∣ o := by
  split_ifs with h
  · simpa using Nat.dvd_of_mod_eq_zero h
  · simp only [Option.isSome_none, Bool.false_eq_true, false_iff]
    intro hd
    obtain ⟨c, rfl⟩ := hd
    exact h (Nat.mul_mod_right n c)

/-- C4: for every stacked-aggregation variant (`StackGCN`,
`StackGCNGate`, `StackRGGCN`, `StackSimple`), construction fails
whenever `output_dim` is not evenly divisible by `num_support` — the
`assert` fires in `__init__`, before any forward evaluation is
possible — and for every divisible pair construction succeeds with
respect to this check. -/
theorem stackedInit_divisibility
    (input_dim output_dim num_support numE : ℕ)
    (hn : 0 < num_support) (hE : numE = num_support) :
    ((stackGCN_init input_dim output_dim num_support).isSome
        ↔ num_support ∣ output_dim)
    ∧ ((stackGCNGate_init input_dim output_dim num_support).isSome
        ↔ num_support ∣ output_dim)
    ∧ ((stackRGGCN_init input_dim output_dim num_support numE).isSome
        ↔ num_support ∣ output_dim)
    ∧ ((stackSimple_init input_dim output_dim num_support numE).isSome
        ↔ num_support ∣ output_dim) := by
  have h1 := initCheck_isSome output_dim num_support
  have e3 : stackRGGCN_init input_dim output_dim num_support numE
      = stackGCN_init input_dim output_dim num_support := by
    subst hE
    simp [stackRGGCN_init, stackGCN_init]
  have e4 : stackSimple_init input_dim output_dim num_support numE
      = stackGCN_init input_dim output_dim num_support := by
    subst hE
    simp [stackSimple_init, stackGCN_init]
  exact ⟨h1, h1, by rw [e3]; exact h1, by rw [e4]; exact h1⟩

/-- Witness for `stackedInit_divisibility`: `output_dim = 4`,
`num_support = 2`. -/
theorem stackedInit_divisibility_witness :
    ((stackGCN_init 5 4 2).isSome ↔ 2 ∣ 4)
    ∧ ((stackGCNGate_init 5 4 2).isSome ↔ 2 ∣ 4)
    ∧ ((stackRGGCN_init 5 4 2 2).isSome ↔ 2 ∣ 4)
    ∧ ((stackSimple_init 5 4 2 2).isSome ↔ 2 ∣ 4) :=
  stackedInit_divisibility 5 4 2 2 (by decide) rfl

theorem filterMap_zip_all_true {α : Type} (l : List α) (bs : List Bool)
    (hlen : bs.length = l.length) (hall : ∀ b ∈ bs, b = true) :
    ((l.zip bs).filterMap (fun e => if e.2 then some e.1 else none)) = l := by
  induction l generalizing bs with
  | nil => simp
  | cons a l ih =>
      cases bs with
      | nil => simp at hlen
      | cons b bs' =>
          have hb : b = true := hall b (by simp)
          subst hb
          simp only [List.zip_cons_cons, List.filterMap_cons, if_pos]

          rw [ih bs' (by simpa using hlen) (fun c hc => hall c (by simp [hc]))]

/-- C7: `dropout_sparse(x, keep_prob=1, n)` with `n` the number of
explicit nonzeros is the identity transform: every uniform draw in
`[0, 1)` yields `floor(1 + u) = 1 ≠ 0`, so every explicit entry is
retained, and the rescaling factor `1 / keep_prob` equals `1`, so the
output equals `x` for every draw vector. -/
theorem dropout_sparse_keepOne_identity (x : SparseM) (draws : List ℚ)
    (hlen : draws.length = x.entries.length)
    (hdr : ∀ u ∈ draws, 0 ≤ u ∧ u < 1) :
    dropout_sparse x 1 draws = x := by
  unfold dropout_sparse
  have hmask : ∀ b ∈ draws.map (fun u => decide (Int.floor ((1 : ℚ) + u) ≠ 0)),
      b = true := by
    intro b hb
    simp only [List.mem_map] at hb
    obtain ⟨u, hu, rfl⟩ := hb
    have h0 := (hdr u hu).1
    have h1 := (hdr u hu).2
    have hfl : Int.floor ((1 : ℚ) + u) = 1 := by
      rw [Int.floor_eq_iff]
      constructor
      · push_cast
        linarith
      · push_cast
        linarith
    simp [hfl]
  rw [filterMap_zip_all_true x.entries _ (by simpa using hlen) hmask]
  have hmap : ∀ e ∈ x.entries, (e.1, e.2.1, e.2.2 * (1 / (1 : ℚ))) = e := by
    rintro ⟨i, j, v⟩ _
    norm_num
  rw [List.map_congr_left hmap]
  simp

/-- Witness for `dropout_sparse_keepOne_identity` on a 2×2 sparse
matrix with two explicit nonzeros and draws `0` and `1/2`. -/
theorem dropout_sparse_keepOne_identity_witness :
    dropout_sparse ⟨2, 2, [(0, 1, (3 : ℚ)), (1, 0, 5)]⟩ 1 [0, 0]
      = ⟨2, 2, [(0, 1, (3 : ℚ)), (1, 0, 5)]⟩ :=
  dropout_sparse_keepOne_identity ⟨2, 2, [(0, 1, (3 : ℚ)), (1, 0, 5)]⟩
    [0, 0] (by decide) (by decide)

/-- C9: every convolution operator's forward evaluation — `StackGCN`,
`StackGCNGate`, `OrdinalMixtureGCN`, `OrdinalRGGCN`, `StackRGGCN`,
`StackRGGCNDouble`, `StackSimple`, `Simple` and `Dense` — is a pure,
stateless function: two calls with identical weight tensors, identical
adjacency matrices, identical input features and identical
dropout-mask draws produce identical outputs; no call mutates the
layer's variables; and a second call starting from the post-call state
reproduces the first call's output. -/
theorem convOperators_forward_pure
    (L L' : StackGCNVars) (G G' : StackGCNGateVars)
    (cfg cfg' : OrdinalMixtureGCN) (p p' : OrdinalRGGCNParams)
    (pr pr' : StackRGGCNParams) (q q' : StackRGGCNDoubleParams)
    (ps ps' : StackSimpleParams) (pw pw' : SimpleParams) (d d' : DenseVars)
    (ρ ρ' σ σ' : ℚ → ℚ) (bn bn' : Mat → Mat)
    (mu mu' mv mv' : ℕ → ℕ → ℚ) (xu xu' xv xv' : Mat)
    (hL : L = L') (hG : G = G') (hcfg : cfg = cfg') (hp : p = p')
    (hpr : pr = pr') (hq : q = q') (hps : ps = ps') (hpw : pw = pw')
    (hd : d = d') (hr : ρ = ρ') (hs : σ = σ') (hbn : bn = bn')
    (hmu : mu = mu') (hmv : mv = mv') (hxu : xu = xu') (hxv : xv = xv') :
    ((stackGCN_callVars L ρ mu mv xu xv).1
        = (stackGCN_callVars L' ρ' mu' mv' xu' xv').1
      ∧ (stackGCN_callVars L ρ mu mv xu xv).2 = L
      ∧ (stackGCN_callVars ((stackGCN_callVars L ρ mu mv xu xv).2)
          ρ mu mv xu xv).1 = (stackGCN_callVars L ρ mu mv xu xv).1)
    ∧ ((stackGCNGate_callVars G σ ρ mu mv xu xv).1
        = (stackGCNGate_callVars G' σ' ρ' mu' mv' xu' xv').1
      ∧ (stackGCNGate_callVars G σ ρ mu mv xu xv).2 = G
      ∧ (stackGCNGate_callVars ((stackGCNGate_callVars G σ ρ mu mv xu xv).2)
          σ ρ mu mv xu xv).1 = (stackGCNGate_callVars G σ ρ mu mv xu xv).1)
    ∧ ((ordinalMixtureGCN_callVars cfg ρ mu mv xu xv).1
        = (ordinalMixtureGCN_callVars cfg' ρ' mu' mv' xu' xv').1
      ∧ (ordinalMixtureGCN_callVars cfg ρ mu mv xu xv).2 = cfg
      ∧ (ordinalMixtureGCN_callVars
          ((ordinalMixtureGCN_callVars cfg ρ mu mv xu xv).2)
          ρ mu mv xu xv).1 = (ordinalMixtureGCN_callVars cfg ρ mu mv xu xv).1)
    ∧ ((ordinalRGGCN_callVars p σ bn mu xu xv).1
        = (ordinalRGGCN_callVars p' σ' bn' mu' xu' xv').1
      ∧ (ordinalRGGCN_callVars p σ bn mu xu xv).2 = p
      ∧ (ordinalRGGCN_callVars ((ordinalRGGCN_callVars p σ bn mu xu xv).2)
          σ bn mu xu xv).1 = (ordinalRGGCN_callVars p σ bn mu xu xv).1)
    ∧ ((stackRGGCN_callVars pr σ bn mu xu xv).1
        = (stackRGGCN_callVars pr' σ' bn' mu' xu' xv').1
      ∧ (stackRGGCN_callVars pr σ bn mu xu xv).2 = pr
      ∧ (stackRGGCN_callVars ((stackRGGCN_callVars pr σ bn mu xu xv).2)
          σ bn mu xu xv).1 = (stackRGGCN_callVars pr σ bn mu xu xv).1)
    ∧ ((stackRGGCNDouble_callVars q σ bn mu xu xv).1
        = (stackRGGCNDouble_callVars q' σ' bn' mu' xu' xv').1
      ∧ (stackRGGCNDouble_callVars q σ bn mu xu xv).2 = q
      ∧ (stackRGGCNDouble_callVars
          ((stackRGGCNDouble_callVars q σ bn mu xu xv).2)
          σ bn mu xu xv).1 = (stackRGGCNDouble_callVars q σ bn mu xu xv).1)
    ∧ ((stackSimple_callVars ps bn mu xu xv).1
        = (stackSimple_callVars ps' bn' mu' xu' xv').1
      ∧ (stackSimple_callVars ps bn mu xu xv).2 = ps
      ∧ (stackSimple_callVars ((stackSimple_callVars ps bn mu xu xv).2)
          bn mu xu xv).1 = (stackSimple_callVars ps bn mu xu xv).1)
    ∧ ((simple_callVars pw mu xu xv).1 = (simple_callVars pw' mu' xu' xv').1
      ∧ (simple_callVars pw mu xu xv).2 = pw
      ∧ (simple_callVars ((simple_callVars pw mu xu xv).2) mu xu xv).1
          = (simple_callVars pw mu xu xv).1)
    ∧ ((dense_callVars d ρ mu mv xu xv).1
        = (dense_callVars d' ρ' mu' mv' xu' xv').1
      ∧ (dense_callVars d ρ mu mv xu xv).2 = d
      ∧ (dense_callVars ((dense_callVars d ρ mu mv xu xv).2)
          ρ mu mv xu xv).1 = (dense_callVars d ρ mu mv xu xv).1) := by
  subst hL
  subst hG
  subst hcfg
  subst hp
  subst hpr
  subst hq
  subst hps
  subst hpw
  subst hd
  subst hr
  subst hs
  subst hbn
  subst hmu
  subst hmv
  subst hxu
  subst hxv
  exact ⟨⟨rfl, rfl, rfl⟩, ⟨rfl, rfl, rfl⟩, ⟨rfl, rfl, rfl⟩, ⟨rfl, rfl, rfl⟩,
    ⟨rfl, rfl, rfl⟩, ⟨rfl, rfl, rfl⟩, ⟨rfl, rfl, rfl⟩, ⟨rfl, rfl, rfl⟩,
    ⟨rfl, rfl, rfl⟩⟩

/-- Witness for `convOperators_forward_pure` on concrete
one-relation instances of all nine operators. -/
theorem convOperators_forward_pure_witness :
  ((stackGCN_callVars ⟨[[[1]]], [[[1]]], [⟨1, 1, [(0, 0, 1)]⟩], [⟨1, 1, [(0, 0, 1)]⟩]⟩
        reluQ (fun _ _ => 1) (fun _ _ => 1) [[1]] [[1]]).1
      = (stackGCN_callVars ⟨[[[1]]], [[[1]]], [⟨1, 1, [(0, 0, 1)]⟩], [⟨1, 1, [(0, 0, 1)]⟩]⟩
        reluQ (fun _ _ => 1) (fun _ _ => 1) [[1]] [[1]]).1
    ∧ (stackGCN_callVars ⟨[[[1]]], [[[1]]], [⟨1, 1, [(0, 0, 1)]⟩], [⟨1, 1, [(0, 0, 1)]⟩]⟩
        reluQ (fun _ _ => 1) (fun _ _ => 1) [[1]] [[1]]).2
      = ⟨[[[1]]], [[[1]]], [⟨1, 1, [(0, 0, 1)]⟩], [⟨1, 1, [(0, 0, 1)]⟩]⟩
    ∧ (stackGCN_callVars ((stackGCN_callVars ⟨[[[1]]], [[[1]]], [⟨1, 1, [(0, 0, 1)]⟩], [⟨1, 1, [(0, 0, 1)]⟩]⟩
        reluQ (fun _ _ => 1) (fun _ _ => 1) [[1]] [[1]]).2)
        reluQ (fun _ _ => 1) (fun _ _ => 1) [[1]] [[1]]).1
      = (stackGCN_callVars ⟨[[[1]]], [[[1]]], [⟨1, 1, [(0, 0, 1)]⟩], [⟨1, 1, [(0, 0, 1)]⟩]⟩
        reluQ (fun _ _ => 1) (fun _ _ => 1) [[1]] [[1]]).1)
  ∧
  ((stackGCNGate_callVars ⟨[[[1]]], [[[1]]], [[[1]]], [[[1]]], [⟨1, 1, [(0, 0, 1)]⟩], [⟨1, 1, [(0, 0, 1)]⟩]⟩
        reluQ reluQ (fun _ _ => 1) (fun _ _ => 1) [[1]] [[1]]).1
      = (stackGCNGate_callVars ⟨[[[1]]], [[[1]]], [[[1]]], [[[1]]], [⟨1, 1, [(0, 0, 1)]⟩], [⟨1, 1, [(0, 0, 1)]⟩]⟩
        reluQ reluQ (fun _ _ => 1) (fun _ _ => 1) [[1]] [[1]]).1
    ∧ (stackGCNGate_callVars ⟨[[[1]]], [[[1]]], [[[1]]], [[[1]]], [⟨1, 1, [(0, 0, 1)]⟩], [⟨1, 1, [(0, 0, 1)]⟩]⟩
        reluQ reluQ (fun _ _ => 1) (fun _ _ => 1) [[1]] [[1]]).2
      = ⟨[[[1]]], [[[1]]], [[[1]]], [[[1]]], [⟨1, 1, [(0, 0, 1)]⟩], [⟨1, 1, [(0, 0, 1)]⟩]⟩
    ∧ (stackGCNGate_callVars ((stackGCNGate_callVars ⟨[[[1]]], [[[1]]], [[[1]]], [[[1]]], [⟨1, 1, [(0, 0, 1)]⟩], [⟨1, 1, [(0, 0, 1)]⟩]⟩
        reluQ reluQ (fun _ _ => 1) (fun _ _ => 1) [[1]] [[1]]).2)
        reluQ reluQ (fun _ _ => 1) (fun _ _ => 1) [[1]] [[1]]).1
      = (stackGCNGate_callVars ⟨[[[1]]], [[[1]]], [[[1]]], [[[1]]], [⟨1, 1, [(0, 0, 1)]⟩], [⟨1, 1, [(0, 0, 1)]⟩]⟩
        reluQ reluQ (fun _ _ => 1) (fun _ _ => 1) [[1]] [[1]]).1)
  ∧
  ((ordinalMixtureGCN_callVars ⟨[[[1]]], [[[1]]], [], [], [⟨1, 1, [(0, 0, 1)]⟩], [⟨1, 1, [(0, 0, 1)]⟩], ⟨0, 0, []⟩, ⟨0, 0, []⟩, false, none, none⟩
        reluQ (fun _ _ => 1) (fun _ _ => 1) [[1]] [[1]]).1
      = (ordinalMixtureGCN_callVars ⟨[[[1]]], [[[1]]], [], [], [⟨1, 1, [(0, 0, 1)]⟩], [⟨1, 1, [(0, 0, 1)]⟩], ⟨0, 0, []⟩, ⟨0, 0, []⟩, false, none, none⟩
        reluQ (fun _ _ => 1) (fun _ _ => 1) [[1]] [[1]]).1
    ∧ (ordinalMixtureGCN_callVars ⟨[[[1]]], [[[1]]], [], [], [⟨1, 1, [(0, 0, 1)]⟩], [⟨1, 1, [(0, 0, 1)]⟩], ⟨0, 0, []⟩, ⟨0, 0, []⟩, false, none, none⟩
        reluQ (fun _ _ => 1) (fun _ _ => 1) [[1]] [[1]]).2
      = ⟨[[[1]]], [[[1]]], [], [], [⟨1, 1, [(0, 0, 1)]⟩], [⟨1, 1, [(0, 0, 1)]⟩], ⟨0, 0, []⟩, ⟨0, 0, []⟩, false, none, none⟩
    ∧ (ordinalMixtureGCN_callVars ((ordinalMixtureGCN_callVars ⟨[[[1]]], [[[1]]], [], [], [⟨1, 1, [(0, 0, 1)]⟩], [⟨1, 1, [(0, 0, 1)]⟩], ⟨0, 0, []⟩, ⟨0, 0, []⟩, false, none, none⟩
        reluQ (fun _ _ => 1) (fun _ _ => 1) [[1]] [[1]]).2)
        reluQ (fun _ _ => 1) (fun _ _ => 1) [[1]] [[1]]).1
      = (ordinalMixtureGCN_callVars ⟨[[[1]]], [[[1]]], [], [], [⟨1, 1, [(0, 0, 1)]⟩], [⟨1, 1, [(0, 0, 1)]⟩], ⟨0, 0, []⟩, ⟨0, 0, []⟩, false, none, none⟩
        reluQ (fun _ _ => 1) (fun _ _ => 1) [[1]] [[1]]).1)
  ∧
  ((ordinalRGGCN_callVars ⟨[[[1]]], [[[1]]], [[[1]]], [[[1]]], [0], [0], [[[1]]], [[[1]]], [[[1]]], [[[1]]], [0], [0], [[1]], [⟨1, 2, [(0, 0, 1)]⟩], [⟨1, 2, [(0, 0, 1)]⟩]⟩
        reluQ (fun M => M) (fun _ _ => 1) [[1]] [[1]]).1
      = (ordinalRGGCN_callVars ⟨[[[1]]], [[[1]]], [[[1]]], [[[1]]], [0], [0], [[[1]]], [[[1]]], [[[1]]], [[[1]]], [0], [0], [[1]], [⟨1, 2, [(0, 0, 1)]⟩], [⟨1, 2, [(0, 0, 1)]⟩]⟩
        reluQ (fun M => M) (fun _ _ => 1) [[1]] [[1]]).1
    ∧ (ordinalRGGCN_callVars ⟨[[[1]]], [[[1]]], [[[1]]], [[[1]]], [0], [0], [[[1]]], [[[1]]], [[[1]]], [[[1]]], [0], [0], [[1]], [⟨1, 2, [(0, 0, 1)]⟩], [⟨1, 2, [(0, 0, 1)]⟩]⟩
        reluQ (fun M => M) (fun _ _ => 1) [[1]] [[1]]).2
      = ⟨[[[1]]], [[[1]]], [[[1]]], [[[1]]], [0], [0], [[[1]]], [[[1]]], [[[1]]], [[[1]]], [0], [0], [[1]], [⟨1, 2, [(0, 0, 1)]⟩], [⟨1, 2, [(0, 0, 1)]⟩]⟩
    ∧ (ordinalRGGCN_callVars ((ordinalRGGCN_callVars ⟨[[[1]]], [[[1]]], [[[1]]], [[[1]]], [0], [0], [[[1]]], [[[1]]], [[[1]]], [[[1]]], [0], [0], [[1]], [⟨1, 2, [(0, 0, 1)]⟩], [⟨1, 2, [(0, 0, 1)]⟩]⟩
        reluQ (fun M => M) (fun _ _ => 1) [[1]] [[1]]).2)
        reluQ (fun M => M) (fun _ _ => 1) [[1]] [[1]]).1
      = (ordinalRGGCN_callVars ⟨[[[1]]], [[[1]]], [[[1]]], [[[1]]], [0], [0], [[[1]]], [[[1]]], [[[1]]], [[[1]]], [0], [0], [[1]], [⟨1, 2, [(0, 0, 1)]⟩], [⟨1, 2, [(0, 0, 1)]⟩]⟩
        reluQ (fun M => M) (fun _ _ => 1) [[1]] [[1]]).1)
  ∧
  ((stackRGGCN_callVars ⟨[[[1]]], [[[1]]], [[[1]]], [[[1]]], [[0]], [[0]], [[1]], [⟨1, 2, [(0, 0, 1)]⟩], [⟨1, 2, [(0, 0, 1)]⟩]⟩
        reluQ (fun M => M) (fun _ _ => 1) [[1]] [[1]]).1
      = (stackRGGCN_callVars ⟨[[[1]]], [[[1]]], [[[1]]], [[[1]]], [[0]], [[0]], [[1]], [⟨1, 2, [(0, 0, 1)]⟩], [⟨1, 2, [(0, 0, 1)]⟩]⟩
        reluQ (fun M => M) (fun _ _ => 1) [[1]] [[1]]).1
    ∧ (stackRGGCN_callVars ⟨[[[1]]], [[[1]]], [[[1]]], [[[1]]], [[0]], [[0]], [[1]], [⟨1, 2, [(0, 0, 1)]⟩], [⟨1, 2, [(0, 0, 1)]⟩]⟩
        reluQ (fun M => M) (fun _ _ => 1) [[1]] [[1]]).2
      = ⟨[[[1]]], [[[1]]], [[[1]]], [[[1]]], [[0]], [[0]], [[1]], [⟨1, 2, [(0, 0, 1)]⟩], [⟨1, 2, [(0, 0, 1)]⟩]⟩
    ∧ (stackRGGCN_callVars ((stackRGGCN_callVars ⟨[[[1]]], [[[1]]], [[[1]]], [[[1]]], [[0]], [[0]], [[1]], [⟨1, 2, [(0, 0, 1)]⟩], [⟨1, 2, [(0, 0, 1)]⟩]⟩
        reluQ (fun M => M) (fun _ _ => 1) [[1]] [[1]]).2)
        reluQ (fun M => M) (fun _ _ => 1) [[1]] [[1]]).1
      = (stackRGGCN_callVars ⟨[[[1]]], [[[1]]], [[[1]]], [[[1]]], [[0]], [[0]], [[1]], [⟨1, 2, [(0, 0, 1)]⟩], [⟨1, 2, [(0, 0, 1)]⟩]⟩
        reluQ (fun M => M) (fun _ _ => 1) [[1]] [[1]]).1)
  ∧
  ((stackRGGCNDouble_callVars ⟨[[[1]]], [[[1]]], [[[1]]], [[[1]]], [[0]], [[0]], [[[1]]], [[[1]]], [[[1]]], [[[1]]], [[0]], [[0]], [[1]], [⟨1, 2, [(0, 0, 1)]⟩], [⟨1, 2, [(0, 0, 1)]⟩]⟩
        reluQ (fun M => M) (fun _ _ => 1) [[1]] [[1]]).1
      = (stackRGGCNDouble_callVars ⟨[[[1]]], [[[1]]], [[[1]]], [[[1]]], [[0]], [[0]], [[[1]]], [[[1]]], [[[1]]], [[[1]]], [[0]], [[0]], [[1]], [⟨1, 2, [(0, 0, 1)]⟩], [⟨1, 2, [(0, 0, 1)]⟩]⟩
        reluQ (fun M => M) (fun _ _ => 1) [[1]] [[1]]).1
    ∧ (stackRGGCNDouble_callVars ⟨[[[1]]], [[[1]]], [[[1]]], [[[1]]], [[0]], [[0]], [[[1]]], [[[1]]], [[[1]]], [[[1]]], [[0]], [[0]], [[1]], [⟨1, 2, [(0, 0, 1)]⟩], [⟨1, 2, [(0, 0, 1)]⟩]⟩
        reluQ (fun M => M) (fun _ _ => 1) [[1]] [[1]]).2
      = ⟨[[[1]]], [[[1]]], [[[1]]], [[[1]]], [[0]], [[0]], [[[1]]], [[[1]]], [[[1]]], [[[1]]], [[0]], [[0]], [[1]], [⟨1, 2, [(0, 0, 1)]⟩], [⟨1, 2, [(0, 0, 1)]⟩]⟩
    ∧ (stackRGGCNDouble_callVars ((stackRGGCNDouble_callVars ⟨[[[1]]], [[[1]]], [[[1]]], [[[1]]], [[0]], [[0]], [[[1]]], [[[1]]], [[[1]]], [[[1]]], [[0]], [[0]], [[1]], [⟨1, 2, [(0, 0, 1)]⟩], [⟨1, 2, [(0, 0, 1)]⟩]⟩
        reluQ (fun M => M) (fun _ _ => 1) [[1]] [[1]]).2)
        reluQ (fun M => M) (fun _ _ => 1) [[1]] [[1]]).1
      = (stackRGGCNDouble_callVars ⟨[[[1]]], [[[1]]], [[[1]]], [[[1]]], [[0]], [[0]], [[[1]]], [[[1]]], [[[1]]], [[[1]]], [[0]], [[0]], [[1]], [⟨1, 2, [(0, 0, 1)]⟩], [⟨1, 2, [(0, 0, 1)]⟩]⟩
        reluQ (fun M => M) (fun _ _ => 1) [[1]] [[1]]).1)
  ∧
  ((stackSimple_callVars ⟨[[[1]]], [[[1]]], [[[1]]], [[[1]]], [[0]], [[0]], [[[1]]], [[[1]]], [[[1]]], [[[1]]], [[0]], [[0]], [[1]], [⟨1, 2, [(0, 0, 1)]⟩], [⟨1, 2, [(0, 0, 1)]⟩]⟩
        (fun M => M) (fun _ _ => 1) [[1]] [[1]]).1
      = (stackSimple_callVars ⟨[[[1]]], [[[1]]], [[[1]]], [[[1]]], [[0]], [[0]], [[[1]]], [[[1]]], [[[1]]], [[[1]]], [[0]], [[0]], [[1]], [⟨1, 2, [(0, 0, 1)]⟩], [⟨1, 2, [(0, 0, 1)]⟩]⟩
        (fun M => M) (fun _ _ => 1) [[1]] [[1]]).1
    ∧ (stackSimple_callVars ⟨[[[1]]], [[[1]]], [[[1]]], [[[1]]], [[0]], [[0]], [[[1]]], [[[1]]], [[[1]]], [[[1]]], [[0]], [[0]], [[1]], [⟨1, 2, [(0, 0, 1)]⟩], [⟨1, 2, [(0, 0, 1)]⟩]⟩
        (fun M => M) (fun _ _ => 1) [[1]] [[1]]).2
      = ⟨[[[1]]], [[[1]]], [[[1]]], [[[1]]], [[0]], [[0]], [[[1]]], [[[1]]], [[[1]]], [[[1]]], [[0]], [[0]], [[1]], [⟨1, 2, [(0, 0, 1)]⟩], [⟨1, 2, [(0, 0, 1)]⟩]⟩
    ∧ (stackSimple_callVars ((stackSimple_callVars ⟨[[[1]]], [[[1]]], [[[1]]], [[[1]]], [[0]], [[0]], [[[1]]], [[[1]]], [[[1]]], [[[1]]], [[0]], [[0]], [[1]], [⟨1, 2, [(0, 0, 1)]⟩], [⟨1, 2, [(0, 0, 1)]⟩]⟩
        (fun M => M) (fun _ _ => 1) [[1]] [[1]]).2)
        (fun M => M) (fun _ _ => 1) [[1]] [[1]]).1
      = (stackSimple_callVars ⟨[[[1]]], [[[1]]], [[[1]]], [[[1]]], [[0]], [[0]], [[[1]]], [[[1]]], [[[1]]], [[[1]]], [[0]], [[0]], [[1]], [⟨1, 2, [(0, 0, 1)]⟩], [⟨1, 2, [(0, 0, 1)]⟩]⟩
        (fun M => M) (fun _ _ => 1) [[1]] [[1]]).1)
  ∧
  ((simple_callVars ⟨[[1]], [0], [[1]], [0]⟩
        (fun _ _ => 1) [[1]] [[1]]).1
      = (simple_callVars ⟨[[1]], [0], [[1]], [0]⟩
        (fun _ _ => 1) [[1]] [[1]]).1
    ∧ (simple_callVars ⟨[[1]], [0], [[1]], [0]⟩
        (fun _ _ => 1) [[1]] [[1]]).2
      = ⟨[[1]], [0], [[1]], [0]⟩
    ∧ (simple_callVars ((simple_callVars ⟨[[1]], [0], [[1]], [0]⟩
        (fun _ _ => 1) [[1]] [[1]]).2)
        (fun _ _ => 1) [[1]] [[1]]).1
      = (simple_callVars ⟨[[1]], [0], [[1]], [0]⟩
        (fun _ _ => 1) [[1]] [[1]]).1)
  ∧
  ((dense_callVars ⟨[[1]], [[1]], none, none⟩
        reluQ (fun _ _ => 1) (fun _ _ => 1) [[1]] [[1]]).1
      = (dense_callVars ⟨[[1]], [[1]], none, none⟩
        reluQ (fun _ _ => 1) (fun _ _ => 1) [[1]] [[1]]).1
    ∧ (dense_callVars ⟨[[1]], [[1]], none, none⟩
        reluQ (fun _ _ => 1) (fun _ _ => 1) [[1]] [[1]]).2
      = ⟨[[1]], [[1]], none, none⟩
    ∧ (dense_callVars ((dense_callVars ⟨[[1]], [[1]], none, none⟩
        reluQ (fun _ _ => 1) (fun _ _ => 1) [[1]] [[1]]).2)
        reluQ (fun _ _ => 1) (fun _ _ => 1) [[1]] [[1]]).1
      = (dense_callVars ⟨[[1]], [[1]], none, none⟩
        reluQ (fun _ _ => 1) (fun _ _ => 1) [[1]] [[1]]).1) :=
  convOperators_forward_pure
    ⟨[[[1]]], [[[1]]], [⟨1, 1, [(0, 0, 1)]⟩], [⟨1, 1, [(0, 0, 1)]⟩]⟩
    ⟨[[[1]]], [[[1]]], [⟨1, 1, [(0, 0, 1)]⟩], [⟨1, 1, [(0, 0, 1)]⟩]⟩
    ⟨[[[1]]], [[[1]]], [[[1]]], [[[1]]], [⟨1, 1, [(0, 0, 1)]⟩], [⟨1, 1, [(0, 0, 1)]⟩]⟩
    ⟨[[[1]]], [[[1]]], [[[1]]], [[[1]]], [⟨1, 1, [(0, 0, 1)]⟩], [⟨1, 1, [(0, 0, 1)]⟩]⟩
    ⟨[[[1]]], [[[1]]], [], [], [⟨1, 1, [(0, 0, 1)]⟩], [⟨1, 1, [(0, 0, 1)]⟩], ⟨0, 0, []⟩, ⟨0, 0, []⟩, false, none, none⟩
    ⟨[[[1]]], [[[1]]], [], [], [⟨1, 1, [(0, 0, 1)]⟩], [⟨1, 1, [(0, 0, 1)]⟩], ⟨0, 0, []⟩, ⟨0, 0, []⟩, false, none, none⟩
    ⟨[[[1]]], [[[1]]], [[[1]]], [[[1]]], [0], [0], [[[1]]], [[[1]]], [[[1]]], [[[1]]], [0], [0], [[1]], [⟨1, 2, [(0, 0, 1)]⟩], [⟨1, 2, [(0, 0, 1)]⟩]⟩
    ⟨[[[1]]], [[[1]]], [[[1]]], [[[1]]], [0], [0], [[[1]]], [[[1]]], [[[1]]], [[[1]]], [0], [0], [[1]], [⟨1, 2, [(0, 0, 1)]⟩], [⟨1, 2, [(0, 0, 1)]⟩]⟩
    ⟨[[[1]]], [[[1]]], [[[1]]], [[[1]]], [[0]], [[0]], [[1]], [⟨1, 2, [(0, 0, 1)]⟩], [⟨1, 2, [(0, 0, 1)]⟩]⟩
    ⟨[[[1]]], [[[1]]], [[[1]]], [[[1]]], [[0]], [[0]], [[1]], [⟨1, 2, [(0, 0, 1)]⟩], [⟨1, 2, [(0, 0, 1)]⟩]⟩
    ⟨[[[1]]], [[[1]]], [[[1]]], [[[1]]], [[0]], [[0]], [[[1]]], [[[1]]], [[[1]]], [[[1]]], [[0]], [[0]], [[1]], [⟨1, 2, [(0, 0, 1)]⟩], [⟨1, 2, [(0, 0, 1)]⟩]⟩
    ⟨[[[1]]], [[[1]]], [[[1]]], [[[1]]], [[0]], [[0]], [[[1]]], [[[1]]], [[[1]]], [[[1]]], [[0]], [[0]], [[1]], [⟨1, 2, [(0, 0, 1)]⟩], [⟨1, 2, [(0, 0, 1)]⟩]⟩
    ⟨[[[1]]], [[[1]]], [[[1]]], [[[1]]], [[0]], [[0]], [[[1]]], [[[1]]], [[[1]]], [[[1]]], [[0]], [[0]], [[1]], [⟨1, 2, [(0, 0, 1)]⟩], [⟨1, 2, [(0, 0, 1)]⟩]⟩
    ⟨[[[1]]], [[[1]]], [[[1]]], [[[1]]], [[0]], [[0]], [[[1]]], [[[1]]], [[[1]]], [[[1]]], [[0]], [[0]], [[1]], [⟨1, 2, [(0, 0, 1)]⟩], [⟨1, 2, [(0, 0, 1)]⟩]⟩
    ⟨[[1]], [0], [[1]], [0]⟩
    ⟨[[1]], [0], [[1]], [0]⟩
    ⟨[[1]], [[1]], none, none⟩
    ⟨[[1]], [[1]], none, none⟩
    reluQ
    reluQ
    reluQ
    reluQ
    (fun M => M)
    (fun M => M)
    (fun _ _ => 1)
    (fun _ _ => 1)
    (fun _ _ => 1)
    (fun _ _ => 1)
    [[1]]
    [[1]]
    [[1]]
    [[1]]
    rfl
    rfl
    rfl
    rfl
    rfl
    rfl
    rfl
    rfl
    rfl
    rfl
    rfl
    rfl
    rfl
    rfl
    rfl
    rfl

theorem length_dropoutD (mask : ℕ → ℕ → ℚ) (x : Mat) :
    (dropoutD mask x).length = x.length := by
  simp [dropoutD]

theorem length_matMul (A B : Mat) : (matMul A B).length = A.length := by
  simp [matMul]

theorem bcastDim_eq_none {m n : ℕ} (h : m ≠ n) (h1 : m ≠ 1) (h2 : n ≠ 1) :
    bcastDim m n = none := by
  simp [bcastDim, h, h1, h2]

/-- C10: `StackGCNGate._call` is only shape-defined when the two
partitions have equal row counts: the gate is `sigmoid(A + B)` with
`A` built from the user features and `B` from the item features, and
whenever the user and item feature matrices have different numbers of
rows (neither equal to 1, so broadcasting cannot rescue the shapes),
the broadcast addition — and with it the whole forward evaluation —
is undefined. -/
theorem stackGCNGate_shapeUndefined
    (wu wv wA wB : List Mat) (sup supt : List SparseM)
    (σ ρ : ℚ → ℚ) (mu mv : ℕ → ℕ → ℚ) (xu xv : Mat)
    (hsup : sup ≠ []) (hne : xu.length ≠ xv.length)
    (hu1 : xu.length ≠ 1) (hv1 : xv.length ≠ 1) :
    stackGCNGate_call wu wv wA wB sup supt σ ρ mu mv xu xv = none := by
  obtain ⟨s0, sup', rfl⟩ : ∃ s0 sup', sup = s0 :: sup' := by
    cases sup with
    | nil => exact absurd rfl hsup
    | cons s0 sup' => exact ⟨s0, sup', rfl⟩
  have hA : (matMul (dropoutD mu xu) (wA.getD 0 [])).length = xu.length := by
    rw [length_matMul, length_dropoutD]
  have hB : (matMul (dropoutD mv xv) (wB.getD 0 [])).length = xv.length := by
    rw [length_matMul, length_dropoutD]
  have hadd : tfAdd (matMul (dropoutD mu xu) (wA.getD 0 []))
      (matMul (dropoutD mv xv) (wB.getD 0 [])) = none := by
    unfold tfAdd tfBinop
    rw [hA, hB, bcastDim_eq_none hne hu1 hv1]
  have hterm : stackGCNGate_relTerm (wu.getD 0 []) (wv.getD 0 [])
      (wA.getD 0 []) (wB.getD 0 []) s0
      (supt.getD 0 ⟨0, 0, []⟩) σ (dropoutD mu xu) (dropoutD mv xv) = none := by
    unfold stackGCNGate_relTerm
    simp only [hadd, Option.none_bind]
  unfold stackGCNGate_call
  simp only [List.length_cons, List.range_succ_eq_map, List.map_cons,
    List.getD_cons_zero, hterm]
  rfl

/-- Witness for `stackGCNGate_shapeUndefined`: 2 user rows against 3
item rows on a one-relation layer. -/
theorem stackGCNGate_shapeUndefined_witness :
    stackGCNGate_call [[[1]]] [[[1]]] [[[1]]] [[[1]]]
      [⟨2, 3, [(0, 0, 1)]⟩] [⟨3, 2, [(0, 0, 1)]⟩] reluQ reluQ
      (fun _ _ => 1) (fun _ _ => 1) [[1], [2]] [[1], [2], [3]] = none :=
  stackGCNGate_shapeUndefined [[[1]]] [[[1]]] [[[1]]] [[[1]]]
    [⟨2, 3, [(0, 0, 1)]⟩] [⟨3, 2, [(0, 0, 1)]⟩] reluQ reluQ
    (fun _ _ => 1) (fun _ _ => 1) [[1], [2]] [[1], [2], [3]]
    (by decide) (by decide) (by decide) (by decide)

theorem width_matMul (A B : Mat) (h : A ≠ []) : width (matMul A B) = width B := by
  cases A with
  | nil => exact absurd rfl h
  | cons a A' => simp [matMul, width]

theorem length_spmm (S : SparseM) (D : Mat) : (spmm S D).length = S.rows := by
  simp [spmm]

theorem mem_spmm_length (S : SparseM) (D : Mat) (r : List ℚ)
    (hr : r ∈ spmm S D) : r.length = width D := by
  simp only [spmm, List.mem_map, List.mem_range] at hr
  obtain ⟨i, _, rfl⟩ := hr
  simp

theorem hconcat_swap (A : Mat) (w : ℕ) :
    ∀ (B : Mat), (∀ r ∈ A, r.length = w) → A.length = B.length →
      hconcat B A = blockSwap w (hconcat A B) := by
  induction A with
  | nil =>
      intro B _ hlen
      cases B with
      | nil => rfl
      | cons b B' => simp at hlen
  | cons a A' ih =>
      intro B hA hlen
      cases B with
      | nil => simp at hlen
      | cons b B' =>
          have ha : a.length = w := hA a (by simp)
          show (b ++ a) :: hconcat B' A'
              = ((a ++ b).drop w ++ (a ++ b).take w) :: blockSwap w (hconcat A' B')
          have h1 : (a ++ b).drop w ++ (a ++ b).take w = b ++ a := by
            rw [← ha, List.drop_left, List.take_left]
          rw [h1]
          exact congrArg _ (ih B' (fun r hr => hA r (by simp [hr]))
            (by simpa using hlen))

theorem emap_blockSwap (ρ : ℚ → ℚ) (w : ℕ) (M : Mat) :
    emap ρ (blockSwap w M) = blockSwap w (emap ρ M) := by
  unfold emap blockSwap
  rw [List.map_map, List.map_map]
  apply List.map_congr_left
  intro r _
  simp [List.map_take, List.map_drop]

/-- C8: for `StackGCN` with `R = 2` relations, swapping the two
relations' adjacency matrices (and their transposes) together with the
corresponding per-relation weight column blocks leaves the forward
output invariant up to the matching permutation of output column
blocks: both output matrices have their relation-0 and relation-1
column blocks exchanged and nothing else changes. -/
theorem stackGCN_relationSwap
    (a0 a1 b0 b1 : Mat) (s0 s1 t0 t1 : SparseM) (ρ : ℚ → ℚ)
    (mu mv : ℕ → ℕ → ℚ) (xu xv : Mat) (w : ℕ)
    (hxu : xu ≠ []) (hxv : xv ≠ [])
    (hwa0 : width a0 = w) (_hwa1 : width a1 = w)
    (hwb0 : width b0 = w) (_hwb1 : width b1 = w)
    (hs : s0.rows = s1.rows) (ht : t0.rows = t1.rows) :
    stackGCN_call [a1, a0] [b1, b0] [s1, s0] [t1, t0] ρ mu mv xu xv
      = (blockSwap w
          (stackGCN_call [a0, a1] [b0, b1] [s0, s1] [t0, t1] ρ mu mv xu xv).1,
         blockSwap w
          (stackGCN_call [a0, a1] [b0, b1] [s0, s1] [t0, t1] ρ mu mv xu xv).2) := by
  have hxu' : dropoutD mu xu ≠ [] := by
    intro h
    have hlen := congrArg List.length h
    rw [length_dropoutD] at hlen
    exact hxu (List.length_eq_zero.mp (by simpa using hlen))
  have hxv' : dropoutD mv xv ≠ [] := by
    intro h
    have hlen := congrArg List.length h
    rw [length_dropoutD] at hlen
    exact hxv (List.length_eq_zero.mp (by simpa using hlen))
  have e1 : stackGCN_call [a1, a0] [b1, b0] [s1, s0] [t1, t0] ρ mu mv xu xv
      = (emap ρ (hconcat (spmm s1 (matMul (dropoutD mv xv) b1))
          (spmm s0 (matMul (dropoutD mv xv) b0))),
         emap ρ (hconcat (spmm t1 (matMul (dropoutD mu xu) a1))
          (spmm t0 (matMul (dropoutD mu xu) a0)))) := rfl
  have e2 : stackGCN_call [a0, a1] [b0, b1] [s0, s1] [t0, t1] ρ mu mv xu xv
      = (emap ρ (hconcat (spmm s0 (matMul (dropoutD mv xv) b0))
          (spmm s1 (matMul (dropoutD mv xv) b1))),
         emap ρ (hconcat (spmm t0 (matMul (dropoutD mu xu) a0))
          (spmm t1 (matMul (dropoutD mu xu) a1)))) := rfl
  rw [e1, e2]
  have h1 : hconcat (spmm s1 (matMul (dropoutD mv xv) b1))
      (spmm s0 (matMul (dropoutD mv xv) b0))
      = blockSwap w (hconcat (spmm s0 (matMul (dropoutD mv xv) b0))
          (spmm s1 (matMul (dropoutD mv xv) b1))) := by
    apply hconcat_swap
    · intro r hr
      rw [mem_spmm_length _ _ r hr, width_matMul _ _ hxv', hwb0]
    · rw [length_spmm, length_spmm, hs]
  have h2 : hconcat (spmm t1 (matMul (dropoutD mu xu) a1))
      (spmm t0 (matMul (dropoutD mu xu) a0))
      = blockSwap w (hconcat (spmm t0 (matMul (dropoutD mu xu) a0))
          (spmm t1 (matMul (dropoutD mu xu) a1))) := by
    apply hconcat_swap
    · intro r hr
      rw [mem_spmm_length _ _ r hr, width_matMul _ _ hxu', hwa0]
    · rw [length_spmm, length_spmm, ht]
  rw [h1, h2, emap_blockSwap, emap_blockSwap]

/-- Witness for `stackGCN_relationSwap` on a 1×1 two-relation fixture. -/
theorem stackGCN_relationSwap_witness :
    stackGCN_call [[[2]], [[1]]] [[[4]], [[3]]]
      [⟨1, 1, [(0, 0, 5)]⟩, ⟨1, 1, [(0, 0, 6)]⟩]
      [⟨1, 1, [(0, 0, 7)]⟩, ⟨1, 1, [(0, 0, 8)]⟩]
      reluQ (fun _ _ => 1) (fun _ _ => 1) [[1]] [[1]]
      = (blockSwap 1
          (stackGCN_call [[[1]], [[2]]] [[[3]], [[4]]]
            [⟨1, 1, [(0, 0, 6)]⟩, ⟨1, 1, [(0, 0, 5)]⟩]
            [⟨1, 1, [(0, 0, 8)]⟩, ⟨1, 1, [(0, 0, 7)]⟩]
            reluQ (fun _ _ => 1) (fun _ _ => 1) [[1]] [[1]]).1,
         blockSwap 1
          (stackGCN_call [[[1]], [[2]]] [[[3]], [[4]]]
            [⟨1, 1, [(0, 0, 6)]⟩, ⟨1, 1, [(0, 0, 5)]⟩]
            [⟨1, 1, [(0, 0, 8)]⟩, ⟨1, 1, [(0, 0, 7)]⟩]
            reluQ (fun _ _ => 1) (fun _ _ => 1) [[1]] [[1]]).2) :=
  stackGCN_relationSwap [[1]] [[2]] [[3]] [[4]]
    ⟨1, 1, [(0, 0, 6)]⟩ ⟨1, 1, [(0, 0, 5)]⟩
    ⟨1, 1, [(0, 0, 8)]⟩ ⟨1, 1, [(0, 0, 7)]⟩
    reluQ (fun _ _ => 1) (fun _ _ => 1) [[1]] [[1]] 1
    (by decide) (by decide) (by decide) (by decide) (by decide) (by decide)
    (by decide) (by decide)

theorem mem_zipWith {α β γ : Type} (f : α → β → γ) :
    ∀ (l1 : List α) (l2 : List β) (c : γ), c ∈ List.zipWith f l1 l2 →
      ∃ a ∈ l1, ∃ b ∈ l2, c = f a b := by
  intro l1
  induction l1 with
  | nil =>
      intro l2 c hc
      simp at hc
  | cons a l1 ih =>
      intro l2 c hc
      cases l2 with
      | nil => simp at hc
      | cons b l2 =>
          simp only [List.zipWith_cons_cons, List.mem_cons] at hc
          rcases hc with rfl | hc
          · exact ⟨a, by simp, b, by simp, rfl⟩
          · obtain ⟨a', ha, b', hb, rfl⟩ := ih l2 c hc
            exact ⟨a', by simp [ha], b', by simp [hb], rfl⟩

theorem rect_matMul (A B : Mat) : Rect (matMul A B) A.length (width B) := by
  constructor
  · simp [matMul]
  · intro r hr
    simp only [matMul, List.mem_map] at hr
    obtain ⟨a, _, rfl⟩ := hr
    simp

theorem rect_spmm (S : SparseM) (D : Mat) : Rect (spmm S D) S.rows (width D) :=
  ⟨length_spmm S D, fun r hr => mem_spmm_length S D r hr⟩

theorem rect_matAdd {A B : Mat} {m n : ℕ} (hA : Rect A m n) (hB : Rect B m n) :
    Rect (matAdd A B) m n := by
  constructor
  · rw [matAdd, List.length_zipWith, hA.1, hB.1, Nat.min_self]
  · intro r hr
    obtain ⟨a, ha, b, hb, rfl⟩ := mem_zipWith _ _ _ r hr
    rw [List.length_zipWith, hA.2 a ha, hB.2 b hb, Nat.min_self]

theorem rect_hconcat {A B : Mat} {m n1 n2 : ℕ} (hA : Rect A m n1)
    (hB : Rect B m n2) : Rect (hconcat A B) m (n1 + n2) := by
  constructor
  · rw [hconcat, List.length_zipWith, hA.1, hB.1, Nat.min_self]
  · intro r hr
    obtain ⟨a, ha, b, hb, rfl⟩ := mem_zipWith _ _ _ r hr
    rw [List.length_append, hA.2 a ha, hB.2 b hb]

theorem rect_foldl_matAdd (l : List Mat) :
    ∀ (acc : Mat) {m n : ℕ}, Rect acc m n → (∀ M ∈ l, Rect M m n) →
      Rect (l.foldl matAdd acc) m n := by
  induction l with
  | nil =>
      intro acc m n hacc _
      exact hacc
  | cons M l ih =>
      intro acc m n hacc hl
      exact ih _ (rect_matAdd hacc (hl M (by simp)))
        (fun N hN => hl N (by simp [hN]))

theorem rect_matAddList {l : List Mat} {m n : ℕ} (hne : l ≠ [])
    (h : ∀ M ∈ l, Rect M m n) : Rect (matAddList l) m n := by
  cases l with
  | nil => exact absurd rfl hne
  | cons M l =>
      exact rect_foldl_matAdd l M (h M (by simp)) (fun N hN => h N (by simp [hN]))

theorem rect_foldl_hconcat (l : List Mat) :
    ∀ (acc : Mat) {m wa w : ℕ}, Rect acc m wa → (∀ M ∈ l, Rect M m w) →
      Rect (l.foldl hconcat acc) m (wa + l.length * w) := by
  induction l with
  | nil =>
      intro acc m wa w hacc _
      simpa using hacc
  | cons M l ih =>
      intro acc m wa w hacc hl
      have := ih (hconcat acc M) (rect_hconcat hacc (hl M (by simp)))
        (fun N hN => hl N (by simp [hN]))
      have harith : wa + w + l.length * w = wa + (M :: l).length * w := by
        simp [List.length_cons, Nat.succ_mul]
        ring
      rwa [harith] at this

theorem rect_concatCols {l : List Mat} {m w : ℕ} (hne : l ≠ [])
    (h : ∀ M ∈ l, Rect M m w) : Rect (concatCols l) m (l.length * w) := by
  cases l with
  | nil => exact absurd rfl hne
  | cons M l =>
      have := rect_foldl_hconcat l M (h M (by simp))
        (fun N hN => h N (by simp [hN]))
      have harith : w + l.length * w = (M :: l).length * w := by
        simp [List.length_cons, Nat.succ_mul]
        ring
      rwa [harith] at this

theorem rect_emap {A : Mat} {m n : ℕ} (f : ℚ → ℚ) (hA : Rect A m n) :
    Rect (emap f A) m n := by
  constructor
  · simp [emap, hA.1]
  · intro r hr
    simp only [emap, List.mem_map] at hr
    obtain ⟨a, ha, rfl⟩ := hr
    simp [hA.2 a ha]

theorem rect_biasAdd {A : Mat} {m n : ℕ} {b : List ℚ} (hA : Rect A m n)
    (hb : b.length = n) : Rect (biasAdd A b) m n := by
  constructor
  · simp [biasAdd, hA.1]
  · intro r hr
    simp only [biasAdd, List.mem_map] at hr
    obtain ⟨a, ha, rfl⟩ := hr
    rw [List.length_zipWith, hA.2 a ha, hb, Nat.min_self]

theorem getD_map_range {α : Type} (f : ℕ → α) (n i : ℕ) (d : α) (h : i < n) :
    ((List.range n).map f).getD i d = f i := by
  rw [List.getD_eq_getElem?_getD]
  rw [List.getElem?_map]
  rw [List.getElem?_range h]
  rfl

theorem rect_dropoutD {x : Mat} {m n : ℕ} (mask : ℕ → ℕ → ℚ)
    (hx : Rect x m n) : Rect (dropoutD mask x) m n := by
  constructor
  · simp [dropoutD, hx.1]
  · intro r hr
    simp only [dropoutD, List.mem_map, List.mem_range] at hr
    obtain ⟨i, hi, rfl⟩ := hr
    have : (x.getD i []).length = n := by
      have hmem : x.getD i [] ∈ x := by
        rw [List.getD_eq_getElem?_getD, List.getElem?_eq_getElem hi]
        exact List.getElem_mem hi
      exact hx.2 _ hmem
    simp only [List.length_map, List.length_range]
    exact this

theorem dropoutD_getD (mask : ℕ → ℕ → ℚ) (x : Mat) (i : ℕ)
    (h : i < x.length) :
    (dropoutD mask x).getD i []
      = (List.range ((x.getD i []).length)).map
          (fun j => (x.getD i []).getD j 0 * mask i j) := by
  unfold dropoutD
  exact getD_map_range _ _ _ _ h

/-- C5: for every pair of equal-length index lists of length `m`, the
`BilinearMixture` decoder output has shape `m × num_classes`, and the
output is unchanged under any modification of embedding rows whose
indices do not appear in the requested index lists: the decoder reads
only the gathered rows. -/
theorem bilinearMixture_shape_and_locality
    (p : BilinearMixtureParams) (act : List ℚ → List ℚ)
    (mu mv : ℕ → ℕ → ℚ) (uEmb vEmb : Mat) (m ncls : ℕ)
    (hm : p.u_indices.length = m) (hvm : p.v_indices.length = m)
    (hw : p.weights ≠ [])
    (hsc : width p.weights_scalars = ncls)
    (hact : ∀ r : List ℚ, (act r).length = r.length)
    (hub : p.user_item_bias = true →
      (∀ i ∈ p.u_indices, i < p.user_bias.length)
      ∧ (∀ r ∈ p.user_bias, r.length = ncls)
      ∧ (∀ i ∈ p.v_indices, i < p.item_bias.length)
      ∧ (∀ r ∈ p.item_bias, r.length = ncls)) :
    Rect (bilinearMixture_call p act mu mv uEmb vEmb) m ncls
    ∧ ∀ uEmb' vEmb' : Mat,
        (∀ i ∈ p.u_indices, i < uEmb.length ∧ i < uEmb'.length
          ∧ uEmb'.getD i [] = uEmb.getD i [])
      → (∀ i ∈ p.v_indices, i < vEmb.length ∧ i < vEmb'.length
          ∧ vEmb'.getD i [] = vEmb.getD i [])
      → bilinearMixture_call p act mu mv uEmb' vEmb'
          = bilinearMixture_call p act mu mv uEmb vEmb := by
  constructor
  · -- shape
    have hlu : (gather (dropoutD mu uEmb) p.u_indices).length = m := by
      simp [gather, hm]
    have hlv : (gather (dropoutD mv vEmb) p.v_indices).length = m := by
      simp [gather, hvm]
    have hcols : ∀ c ∈ p.weights.map (fun W =>
        List.zipWith dotRow
          (mulInputsWeights p.diagonal (gather (dropoutD mu uEmb) p.u_indices) W)
          (gather (dropoutD mv vEmb) p.v_indices)), c.length = m := by
      intro c hc
      simp only [List.mem_map] at hc
      obtain ⟨W, _, rfl⟩ := hc
      rw [List.length_zipWith, hlv]
      have hmw : (mulInputsWeights p.diagonal
          (gather (dropoutD mu uEmb) p.u_indices) W).length = m := by
        unfold mulInputsWeights
        split_ifs
        · simp [hlu]
        · rw [length_matMul, hlu]
      rw [hmw, Nat.min_self]
    have hbasis : Rect (stackAxis1 (p.weights.map (fun W =>
        List.zipWith dotRow
          (mulInputsWeights p.diagonal (gather (dropoutD mu uEmb) p.u_indices) W)
          (gather (dropoutD mv vEmb) p.v_indices)))) m p.weights.length := by
      constructor
      · cases hpw : p.weights with
        | nil => exact absurd hpw hw
        | cons W ws =>
            simp only [hpw, List.map_cons, stackAxis1, List.headD_cons,
              List.length_map, List.length_range]
            exact hcols _ (by rw [hpw]; simp)
      · intro r hr
        simp only [stackAxis1, List.mem_map, List.mem_range] at hr
        obtain ⟨k, _, rfl⟩ := hr
        simp
    have houtputs : Rect (matMul (stackAxis1 (p.weights.map (fun W =>
        List.zipWith dotRow
          (mulInputsWeights p.diagonal (gather (dropoutD mu uEmb) p.u_indices) W)
          (gather (dropoutD mv vEmb) p.v_indices)))) p.weights_scalars) m ncls := by
      have := rect_matMul (stackAxis1 (p.weights.map (fun W =>
        List.zipWith dotRow
          (mulInputsWeights p.diagonal (gather (dropoutD mu uEmb) p.u_indices) W)
          (gather (dropoutD mv vEmb) p.v_indices)))) p.weights_scalars
      rwa [hbasis.1, hsc] at this
    have hrect_act : ∀ (M : Mat), Rect M m ncls → Rect (M.map act) m ncls := by
      intro M hM
      constructor
      · simp [hM.1]
      · intro r hr
        simp only [List.mem_map] at hr
        obtain ⟨a, ha, rfl⟩ := hr
        rw [hact, hM.2 a ha]
    unfold bilinearMixture_call
    by_cases hbias : p.user_item_bias
    · simp only [hbias, if_true]
      apply hrect_act
      obtain ⟨hub1, hub2, hub3, hub4⟩ := hub hbias
      have hgb_u : Rect (gather p.user_bias p.u_indices) m ncls := by
        constructor
        · simp [gather, hm]
        · intro r hr
          simp only [gather, List.mem_map] at hr
          obtain ⟨i, hi, rfl⟩ := hr
          apply hub2
          rw [List.getD_eq_getElem?_getD,
            List.getElem?_eq_getElem (hub1 i hi)]
          exact List.getElem_mem (hub1 i hi)
      have hgb_v : Rect (gather p.item_bias p.v_indices) m ncls := by
        constructor
        · simp [gather, hvm]
        · intro r hr
          simp only [gather, List.mem_map] at hr
          obtain ⟨i, hi, rfl⟩ := hr
          apply hub4
          rw [List.getD_eq_getElem?_getD,
            List.getElem?_eq_getElem (hub3 i hi)]
          exact List.getElem_mem (hub3 i hi)
      exact rect_matAdd (rect_matAdd houtputs hgb_u) hgb_v
    · simp only [hbias, if_false]
      exact hrect_act _ houtputs
  · -- locality
    intro uEmb' vEmb' hu hv
    have hgu : gather (dropoutD mu uEmb') p.u_indices
        = gather (dropoutD mu uEmb) p.u_indices := by
      unfold gather
      apply List.map_congr_left
      intro i hi
      obtain ⟨h1, h2, h3⟩ := hu i hi
      rw [dropoutD_getD mu uEmb' i h2, dropoutD_getD mu uEmb i h1, h3]
    have hgv : gather (dropoutD mv vEmb') p.v_indices
        = gather (dropoutD mv vEmb) p.v_indices := by
      unfold gather
      apply List.map_congr_left
      intro i hi
      obtain ⟨h1, h2, h3⟩ := hv i hi
      rw [dropoutD_getD mv vEmb' i h2, dropoutD_getD mv vEmb i h1, h3]
    unfold bilinearMixture_call
    rw [hgu, hgv]

/-- Witness for `bilinearMixture_shape_and_locality`: three requested
edges, one diagonal basis, two classes. -/
theorem bilinearMixture_shape_and_locality_witness :
    Rect (bilinearMixture_call
        ⟨[[[1, 1]]], [[1, 2]], [], [], false, true, [0, 1, 0], [1, 0, 0]⟩
        (fun r => r) (fun _ _ => 1) (fun _ _ => 1)
        [[1, 2], [3, 4]] [[5, 6], [7, 8]]) 3 2
    ∧ ∀ uEmb' vEmb' : Mat,
        (∀ i ∈ ([0, 1, 0] : List ℕ), i < ([[1, 2], [3, 4]] : Mat).length
          ∧ i < uEmb'.length
          ∧ uEmb'.getD i [] = ([[1, 2], [3, 4]] : Mat).getD i [])
      → (∀ i ∈ ([1, 0, 0] : List ℕ), i < ([[5, 6], [7, 8]] : Mat).length
          ∧ i < vEmb'.length
          ∧ vEmb'.getD i [] = ([[5, 6], [7, 8]] : Mat).getD i [])
      → bilinearMixture_call
            ⟨[[[1, 1]]], [[1, 2]], [], [], false, true, [0, 1, 0], [1, 0, 0]⟩
            (fun r => r) (fun _ _ => 1) (fun _ _ => 1) uEmb' vEmb'
          = bilinearMixture_call
            ⟨[[[1, 1]]], [[1, 2]], [], [], false, true, [0, 1, 0], [1, 0, 0]⟩
            (fun r => r) (fun _ _ => 1) (fun _ _ => 1)
            [[1, 2], [3, 4]] [[5, 6], [7, 8]] :=
  bilinearMixture_shape_and_locality
    ⟨[[[1, 1]]], [[1, 2]], [], [], false, true, [0, 1, 0], [1, 0, 0]⟩
    (fun r => r) (fun _ _ => 1) (fun _ _ => 1)
    [[1, 2], [3, 4]] [[5, 6], [7, 8]] 3 2
    (by decide) (by decide) (by decide) (by decide)
    (fun r => rfl) (by decide)

theorem getD_mem {α : Type} (l : List α) (i : ℕ) (d : α) (h : i < l.length) :
    l.getD i d ∈ l := by
  rw [List.getD_eq_getElem?_getD, List.getElem?_eq_getElem h]
  exact List.getElem_mem h

theorem width_of_rect {A : Mat} {m n : ℕ} (hA : Rect A m n) (hm : 0 < m) :
    width A = n := by
  cases A with
  | nil =>
      rw [← hA.1] at hm
      simp at hm
  | cons a A' => exact hA.2 a (by simp)

theorem dropoutD_ne_nil (mask : ℕ → ℕ → ℚ) {x : Mat} (hx : x ≠ []) :
    dropoutD mask x ≠ [] := by
  intro h
  have hlen := congrArg List.length h
  rw [length_dropoutD] at hlen
  exact hx (List.length_eq_zero.mp (by simpa using hlen))

theorem length_runningSumsAux (l : List Mat) :
    ∀ acc : Mat, (runningSumsAux acc l).length = l.length + 1 := by
  induction l with
  | nil => intro acc; rfl
  | cons w ws ih =>
      intro acc
      simp [runningSumsAux, ih]

theorem length_runningSums (ws : List Mat) :
    (runningSums ws).length = ws.length := by
  cases ws with
  | nil => rfl
  | cons w ws => simp [runningSums, length_runningSumsAux]

theorem rect_runningSumsAux (l : List Mat) :
    ∀ (acc : Mat) {m n : ℕ}, Rect acc m n → (∀ w ∈ l, Rect w m n) →
      ∀ M ∈ runningSumsAux acc l, Rect M m n := by
  induction l with
  | nil =>
      intro acc m n hacc _ M hM
      simp only [runningSumsAux, List.mem_singleton] at hM
      exact hM ▸ hacc
  | cons w ws ih =>
      intro acc m n hacc hl M hM
      simp only [runningSumsAux, List.mem_cons] at hM
      rcases hM with rfl | hM
      · exact hacc
      · exact ih (matAdd acc w) (rect_matAdd hacc (hl w (by simp)))
          (fun v hv => hl v (by simp [hv])) M hM

theorem rect_runningSums {ws : List Mat} {m n : ℕ}
    (h : ∀ w ∈ ws, Rect w m n) : ∀ M ∈ runningSums ws, Rect M m n := by
  cases ws with
  | nil => intro M hM; simp [runningSums] at hM
  | cons w ws =>
      exact rect_runningSumsAux ws w (h w (by simp))
        (fun v hv => h v (by simp [hv]))

theorem rect_applyBias {A : Mat} {m n : ℕ} {ob : Option (List ℚ)}
    (hA : Rect A m n) (hb : ∀ b ∈ ob, b.length = n) :
    Rect (applyBias ob A) m n := by
  cases ob with
  | none => exact hA
  | some b => exact rect_biasAdd hA (hb b rfl)

/-- C6: with `R` relations and `output_dim` divisible by `R`, the
`StackGCN` concatenated per-relation outputs have total feature width
exactly `output_dim` (`R` blocks of width `output_dim / R`), and the
`OrdinalMixtureGCN` summed outputs have feature width `output_dim` for
every relation count, with no divisibility precondition. -/
theorem outputWidth_stacked_and_mixture
    (wu wv : List Mat) (sup supt : List SparseM) (ρ : ℚ → ℚ)
    (mu mv : ℕ → ℕ → ℚ) (xu xv : Mat)
    (cfg : OrdinalMixtureGCN) (ρ2 : ℚ → ℚ) (mu2 mv2 : ℕ → ℕ → ℚ)
    (xu2 xv2 : Mat) (R o nu nv din o2 nu2 nv2 : ℕ)
    (hR : 0 < R) (hdvd : R ∣ o)
    (hwu : wu.length = R) (hwv : wv.length = R)
    (hbu : ∀ b ∈ wu, width b = o / R) (hbv : ∀ b ∈ wv, width b = o / R)
    (hsup : sup.length = R) (hsupt : supt.length = R)
    (hrows : ∀ s ∈ sup, s.rows = nu) (hrowst : ∀ t ∈ supt, t.rows = nv)
    (hxu : xu ≠ []) (hxv : xv ≠ [])
    (hms : cfg.support ≠ [])
    (hmlu : cfg.support.length ≤ cfg.loopWeights_u.length)
    (hmlv : cfg.support.length ≤ cfg.loopWeights_v.length)
    (hmst : cfg.support_t.length = cfg.support.length)
    (hdin : 0 < din)
    (hmwu : ∀ w ∈ cfg.loopWeights_u, Rect w din o2)
    (hmwv : ∀ w ∈ cfg.loopWeights_v, Rect w din o2)
    (hmr : ∀ s ∈ cfg.support, s.rows = nu2)
    (hmrt : ∀ t ∈ cfg.support_t, t.rows = nv2)
    (hself : cfg.selfConnections = true →
      width cfg.selfWeight_u = o2 ∧ width cfg.selfWeight_v = o2
      ∧ cfg.uSelf.rows = nu2 ∧ cfg.vSelf.rows = nv2)
    (hbias_u : ∀ b ∈ cfg.bias_u, b.length = o2)
    (hbias_v : ∀ b ∈ cfg.bias_v, b.length = o2)
    (hxu2 : xu2 ≠ []) (hxv2 : xv2 ≠ []) :
    Rect (stackGCN_call wu wv sup supt ρ mu mv xu xv).1 nu o
    ∧ Rect (stackGCN_call wu wv sup supt ρ mu mv xu xv).2 nv o
    ∧ Rect (ordinalMixtureGCN_call cfg ρ2 mu2 mv2 xu2 xv2).1 nu2 o2
    ∧ Rect (ordinalMixtureGCN_call cfg ρ2 mu2 mv2 xu2 xv2).2 nv2 o2 := by
  have hxu' := dropoutD_ne_nil mu hxu
  have hxv' := dropoutD_ne_nil mv hxv
  have hRo : R * (o / R) = o := Nat.mul_div_cancel' hdvd
  have hstack_u : Rect (stackGCN_call wu wv sup supt ρ mu mv xu xv).1 nu o := by
    show Rect (emap ρ (concatCols ((List.range sup.length).map (fun i =>
      spmm (sup.getD i ⟨0, 0, []⟩)
        (matMul (dropoutD mv xv) (wv.getD i [])))))) nu o
    apply rect_emap
    have hrect : ∀ M ∈ (List.range sup.length).map (fun i =>
        spmm (sup.getD i ⟨0, 0, []⟩)
          (matMul (dropoutD mv xv) (wv.getD i []))), Rect M nu (o / R) := by
      intro M hM
      simp only [List.mem_map, List.mem_range] at hM
      obtain ⟨i, hi, rfl⟩ := hM
      have h1 := rect_spmm (sup.getD i ⟨0, 0, []⟩)
        (matMul (dropoutD mv xv) (wv.getD i []))
      rwa [hrows _ (getD_mem sup i _ hi), width_matMul _ _ hxv',
        hbv _ (getD_mem wv i [] (by rw [hwv, ← hsup]; exact hi))] at h1
    have hne : (List.range sup.length).map (fun i =>
        spmm (sup.getD i ⟨0, 0, []⟩)
          (matMul (dropoutD mv xv) (wv.getD i []))) ≠ [] := by
      intro h
      have := congrArg List.length h
      simp only [List.length_map, List.length_range, List.length_nil] at this
      rw [hsup] at this
      omega
    have := rect_concatCols hne hrect
    have hlen2 : ((List.range sup.length).map (fun i =>
        spmm (sup.getD i ⟨0, 0, []⟩)
          (matMul (dropoutD mv xv) (wv.getD i [])))).length * (o / R) = o := by
      rw [List.length_map, List.length_range, hsup, hRo]
    rwa [hlen2] at this
  have hstack_v : Rect (stackGCN_call wu wv sup supt ρ mu mv xu xv).2 nv o := by
    show Rect (emap ρ (concatCols ((List.range sup.length).map (fun i =>
      spmm (supt.getD i ⟨0, 0, []⟩)
        (matMul (dropoutD mu xu) (wu.getD i [])))))) nv o
    apply rect_emap
    have hrect : ∀ M ∈ (List.range sup.length).map (fun i =>
        spmm (supt.getD i ⟨0, 0, []⟩)
          (matMul (dropoutD mu xu) (wu.getD i []))), Rect M nv (o / R) := by
      intro M hM
      simp only [List.mem_map, List.mem_range] at hM
      obtain ⟨i, hi, rfl⟩ := hM
      have h1 := rect_spmm (supt.getD i ⟨0, 0, []⟩)
        (matMul (dropoutD mu xu) (wu.getD i []))
      rwa [hrowst _ (getD_mem supt i _ (by rw [hsupt, ← hsup]; exact hi)),
        width_matMul _ _ hxu',
        hbu _ (getD_mem wu i [] (by rw [hwu, ← hsup]; exact hi))] at h1
    have hne : (List.range sup.length).map (fun i =>
        spmm (supt.getD i ⟨0, 0, []⟩)
          (matMul (dropoutD mu xu) (wu.getD i []))) ≠ [] := by
      intro h
      have := congrArg List.length h
      simp only [List.length_map, List.length_range, List.length_nil] at this
      rw [hsup] at this
      omega
    have := rect_concatCols hne hrect
    have hlen2 : ((List.range sup.length).map (fun i =>
        spmm (supt.getD i ⟨0, 0, []⟩)
          (matMul (dropoutD mu xu) (wu.getD i [])))).length * (o / R) = o := by
      rw [List.length_map, List.length_range, hsup, hRo]
    rwa [hlen2] at this
  have hxu2' := dropoutD_ne_nil mu2 hxu2
  have hxv2' := dropoutD_ne_nil mv2 hxv2
  have hslen : 0 < cfg.support.length := List.length_pos.mpr hms
  have hsummU : ∀ M ∈ (ordinalMixtureGCN_summands cfg (dropoutD mu2 xu2)
      (dropoutD mv2 xv2)).1, Rect M nu2 o2 := by
    intro M hM
    simp only [ordinalMixtureGCN_summands, List.mem_append, List.mem_map,
      List.mem_range] at hM
    rcases hM with hM | hM
    · cases hsc : cfg.selfConnections with
      | false => rw [hsc] at hM; simp at hM
      | true =>
          rw [hsc] at hM
          simp only [if_true, List.mem_singleton] at hM
          subst hM
          have h1 := rect_spmm cfg.uSelf
            (matMul (dropoutD mu2 xu2) cfg.selfWeight_u)
          rwa [(hself hsc).2.2.1, width_matMul _ _ hxu2',
            (hself hsc).1] at h1
    · obtain ⟨i, hi, rfl⟩ := hM
      have h1 := rect_spmm (cfg.support.getD i ⟨0, 0, []⟩)
        (matMul (dropoutD mv2 xv2)
          ((ordinalMixtureGCN_effWeights_v cfg).getD i []))
      have heff : Rect ((ordinalMixtureGCN_effWeights_v cfg).getD i []) din o2 :=
        rect_runningSums hmwv _
          (getD_mem _ i []
            (by rw [length_runningSums]
                omega))
      rwa [hmr _ (getD_mem cfg.support i _ hi), width_matMul _ _ hxv2',
        width_of_rect heff hdin] at h1
  have hsummV : ∀ M ∈ (ordinalMixtureGCN_summands cfg (dropoutD mu2 xu2)
      (dropoutD mv2 xv2)).2, Rect M nv2 o2 := by
    intro M hM
    simp only [ordinalMixtureGCN_summands, List.mem_append, List.mem_map,
      List.mem_range] at hM
    rcases hM with hM | hM
    · cases hsc : cfg.selfConnections with
      | false => rw [hsc] at hM; simp at hM
      | true =>
          rw [hsc] at hM
          simp only [if_true, List.mem_singleton] at hM
          subst hM
          have h1 := rect_spmm cfg.vSelf
            (matMul (dropoutD mv2 xv2) cfg.selfWeight_v)
          rwa [(hself hsc).2.2.2, width_matMul _ _ hxv2',
            (hself hsc).2.1] at h1
    · obtain ⟨i, hi, rfl⟩ := hM
      have h1 := rect_spmm (cfg.support_t.getD i ⟨0, 0, []⟩)
        (matMul (dropoutD mu2 xu2)
          ((ordinalMixtureGCN_effWeights_u cfg).getD i []))
      have heff : Rect ((ordinalMixtureGCN_effWeights_u cfg).getD i []) din o2 :=
        rect_runningSums hmwu _
          (getD_mem _ i []
            (by rw [length_runningSums]
                omega))
      rwa [hmrt _ (getD_mem cfg.support_t i _ (by omega)),
        width_matMul _ _ hxu2', width_of_rect heff hdin] at h1
  have hsumNe1 : (ordinalMixtureGCN_summands cfg (dropoutD mu2 xu2)
      (dropoutD mv2 xv2)).1 ≠ [] := by
    intro h
    have := congrArg List.length h
    simp only [ordinalMixtureGCN_summands, List.length_append,
      List.length_map, List.length_range, List.length_nil] at this
    omega
  have hsumNe2 : (ordinalMixtureGCN_summands cfg (dropoutD mu2 xu2)
      (dropoutD mv2 xv2)).2 ≠ [] := by
    intro h
    have := congrArg List.length h
    simp only [ordinalMixtureGCN_summands, List.length_append,
      List.length_map, List.length_range, List.length_nil] at this
    omega
  have hmix_u : Rect (ordinalMixtureGCN_call cfg ρ2 mu2 mv2 xu2 xv2).1 nu2 o2 := by
    show Rect (emap ρ2 (applyBias cfg.bias_u
      (matAddList (ordinalMixtureGCN_summands cfg (dropoutD mu2 xu2)
        (dropoutD mv2 xv2)).1))) nu2 o2
    exact rect_emap _ (rect_applyBias (rect_matAddList hsumNe1 hsummU) hbias_u)
  have hmix_v : Rect (ordinalMixtureGCN_call cfg ρ2 mu2 mv2 xu2 xv2).2 nv2 o2 := by
    show Rect (emap ρ2 (applyBias cfg.bias_v
      (matAddList (ordinalMixtureGCN_summands cfg (dropoutD mu2 xu2)
        (dropoutD mv2 xv2)).2))) nv2 o2
    exact rect_emap _ (rect_applyBias (rect_matAddList hsumNe2 hsummV) hbias_v)
  exact ⟨hstack_u, hstack_v, hmix_u, hmix_v⟩

/-- Witness for `outputWidth_stacked_and_mixture`: `R = 2`,
`output_dim = 4` on the stacked side; one relation, `output_dim = 2`
on the mixture side. -/
theorem outputWidth_stacked_and_mixture_witness :
    Rect (stackGCN_call [[[1, 0]], [[0, 1]]] [[[1, 0]], [[0, 1]]]
      [⟨1, 1, [(0, 0, 1)]⟩, ⟨1, 1, [(0, 0, 2)]⟩]
      [⟨1, 1, [(0, 0, 1)]⟩, ⟨1, 1, [(0, 0, 2)]⟩]
      reluQ (fun _ _ => 1) (fun _ _ => 1) [[1]] [[1]]).1 1 4
    ∧ Rect (stackGCN_call [[[1, 0]], [[0, 1]]] [[[1, 0]], [[0, 1]]]
      [⟨1, 1, [(0, 0, 1)]⟩, ⟨1, 1, [(0, 0, 2)]⟩]
      [⟨1, 1, [(0, 0, 1)]⟩, ⟨1, 1, [(0, 0, 2)]⟩]
      reluQ (fun _ _ => 1) (fun _ _ => 1) [[1]] [[1]]).2 1 4
    ∧ Rect (ordinalMixtureGCN_call
      ⟨[[[1, 1]]], [[[1, 1]]], [], [], [⟨1, 1, [(0, 0, 1)]⟩],
        [⟨1, 1, [(0, 0, 1)]⟩], ⟨0, 0, []⟩, ⟨0, 0, []⟩, false, none, none⟩
      reluQ (fun _ _ => 1) (fun _ _ => 1) [[1]] [[1]]).1 1 2
    ∧ Rect (ordinalMixtureGCN_call
      ⟨[[[1, 1]]], [[[1, 1]]], [], [], [⟨1, 1, [(0, 0, 1)]⟩],
        [⟨1, 1, [(0, 0, 1)]⟩], ⟨0, 0, []⟩, ⟨0, 0, []⟩, false, none, none⟩
      reluQ (fun _ _ => 1) (fun _ _ => 1) [[1]] [[1]]).2 1 2 :=
  outputWidth_stacked_and_mixture
    [[[1, 0]], [[0, 1]]] [[[1, 0]], [[0, 1]]]
    [⟨1, 1, [(0, 0, 1)]⟩, ⟨1, 1, [(0, 0, 2)]⟩]
    [⟨1, 1, [(0, 0, 1)]⟩, ⟨1, 1, [(0, 0, 2)]⟩]
    reluQ (fun _ _ => 1) (fun _ _ => 1) [[1]] [[1]]
    ⟨[[[1, 1]]], [[[1, 1]]], [], [], [⟨1, 1, [(0, 0, 1)]⟩],
      [⟨1, 1, [(0, 0, 1)]⟩], ⟨0, 0, []⟩, ⟨0, 0, []⟩, false, none, none⟩
    reluQ (fun _ _ => 1) (fun _ _ => 1) [[1]] [[1]]
    2 4 1 1 1 2 1 1
    (by decide) (by decide) (by decide) (by decide) (by decide) (by decide)
    (by decide) (by decide) (by decide) (by decide) (by decide) (by decide)
    (by decide) (by decide) (by decide) (by decide) (by decide)
    (by simp [Rect]) (by simp [Rect])
    (by decide) (by decide) (by decide)
    (fun b hb => absurd hb (Option.not_mem_none b))
    (fun b hb => absurd hb (Option.not_mem_none b))
    (by decide) (by decide)

end GCMC
